import Mathlib

/-!
Verification of the ND-Pyomo-Cookbook tooling scripts.

Shallow embedding of the repository's auxiliary Python code:

* `python/helper.py` — solver installation helpers.  The external world
  (executables on the search path, files on disk, importable Python modules)
  is a `World`; the effect of a shell command run through `os.system` is an
  arbitrary parameter `ex : String → World → World` (`os.system` itself never
  raises and its exit code is ignored by the helpers, as in the source).
  `print` output is collected as a list of the printed strings.
* `tools/__main__.py`, `tools/generate_contents.py` — notebook tooling.
  A notebook is its `nbformat` cell list; cells carry `cell_type` and
  `source`.  Python exceptions that the tooling can actually raise
  (`IndexError` from `[0]` on an empty list, `StopIteration` from `next`
  on an exhausted iterator) are modelled with `Except`/`Option`.

Python string primitives used by the scripts (`str.splitlines`, `str.strip`,
`str.split`, `in`, `str.isdigit`, slicing) are re-implemented faithfully on
`List Char` below.
-/

namespace PyomoCookbook

/-- Python exceptions that the modelled code can raise. -/
inductive Err where
  | indexError
  | stopIteration
  | importError
  | attrError
  deriving DecidableEq, Repr

deriving instance DecidableEq for Except

/-! ## Python string primitives -/

/-- Python line-break characters recognised by `str.splitlines`. -/
def isLineBreak (c : Char) : Bool :=
  c = '\n' || c = '\r' || c = '\x0b' || c = '\x0c' ||
  c = '\x1c' || c = '\x1d' || c = '\x1e' || c = '\x85' ||
  c = '\u2028' || c = '\u2029'

/-- Worker for `str.splitlines`: `acc` is the current line (reversed) and
`afterCR` records that the previous character was a line-breaking `'\r'`,
so that an immediately following `'\n'` is absorbed into the same
`"\r\n"` break. -/
def splitlinesAux : Bool → List Char → List Char → List (List Char)
  | _, acc, [] => if acc.isEmpty then [] else [acc.reverse]
  | afterCR, acc, c :: rest =>
      if afterCR && (c == '\n') then splitlinesAux false acc rest
      else if isLineBreak c then acc.reverse :: splitlinesAux (c == '\r') [] rest
      else splitlinesAux false (c :: acc) rest

/-- Python `s.splitlines()`: `""` gives `[]`, a trailing break adds no line. -/
def pySplitlines (s : String) : List String :=
  (splitlinesAux false [] s.data).map String.mk

/-- Whitespace stripped by Python `str.strip()` (ASCII whitespace). -/
def pyIsSpace (c : Char) : Bool :=
  c = ' ' || c = '\t' || c = '\n' || c = '\r' || c = '\x0b' || c = '\x0c'

/-- Python `s.strip()`. -/
def pyStripList (cs : List Char) : List Char :=
  ((cs.dropWhile pyIsSpace).reverse.dropWhile pyIsSpace).reverse

/-- Python `s.strip()` on `String`. -/
def pyStrip (s : String) : String := String.mk (pyStripList s.data)

/-- Worker for `str.split()` with no separator: split on whitespace runs. -/
def splitWSAux : List Char → List Char → List (List Char)
  | acc, [] => if acc.isEmpty then [] else [acc.reverse]
  | acc, c :: rest =>
      if pyIsSpace c then
        if acc.isEmpty then splitWSAux [] rest
        else acc.reverse :: splitWSAux [] rest
      else splitWSAux (c :: acc) rest

/-- Python `s.split()` (no argument): words, empty strings discarded. -/
def pySplitWS (s : String) : List String :=
  (splitWSAux [] s.data).map String.mk

/-- Substring containment test on character lists. -/
def isInfixList : List Char → List Char → Bool
  | needle, [] => needle.isEmpty
  | needle, c :: rest => needle.isPrefixOf (c :: rest) || isInfixList needle rest

/-- Python `needle in haystack` for strings: substring containment. -/
def pyIn (needle haystack : String) : Bool :=
  isInfixList needle.data haystack.data

/-- Python `s.startswith(pre)`. -/
def pyStartsWith (pre s : String) : Bool :=
  pre.data.isPrefixOf s.data

/-- Python `s.isdigit()` (restricted to ASCII digits, as in the filenames
the tooling handles). -/
def pyIsdigit (s : String) : Bool :=
  !s.data.isEmpty && s.data.all Char.isDigit

/-- Python `int(s)` on a string of ASCII digits. -/
def pyInt (s : String) : Nat :=
  s.data.foldl (fun n c => n * 10 + (c.toNat - 48)) 0

/-- Python `str(x)` for an optional string: `None` prints as `"None"`.
This is how `format`/f-strings render a missing notebook title. -/
def pyStr : Option String → String
  | none => "None"
  | some s => s

/-- Python `os.path.join(a, b)` (posix semantics, as used by the scripts). -/
def pyPathJoin (a b : String) : String :=
  if pyStartsWith "/" b then b
  else if a = "" then b
  else if a.data.getLast? = some '/' then a ++ b
  else a ++ "/" ++ b

/-! ## `python/helper.py` -/

/-- The state of the machine the helpers run on: which executables
`shutil.which` finds, which paths `os.path.isfile` accepts, and which
Python modules can be imported. -/
structure World where
  which : String → Bool
  isfile : String → Bool
  imp : String → Bool

/-- `helper._check_available`: executable found on the search path or an
existing file. -/
def _check_available (w : World) (name : String) : Bool :=
  w.which name || w.isfile name

/-- `helper.package_available`: for `"glpk"` the executable checked is
`"glpsol"`; every other package is checked under its own name. -/
def package_available (w : World) (pkg : String) : Bool :=
  if pkg == "glpk" then _check_available w "glpsol" else _check_available w pkg

/-- `helper.package_found`: availability plus the message it prints. -/
def package_found (w : World) (pkg : String) : Bool × List String :=
  let a := package_available w pkg
  (a, if a then [pkg ++ " was previously installed"] else [])

/-- `helper.package_confirm`: availability after an installation attempt,
plus the pass/fail message it prints. -/
def package_confirm (w : World) (pkg : String) : Bool × List String :=
  if package_available w pkg then (true, ["installation successful"])
  else (false, ["installation failed"])

/-- Result of running one installation helper: the Python return value
(`none` models Python `None`, from a bare `return`), the final world, and
everything printed. -/
structure HRes where
  ret : Option Bool
  world : World
  out : List String

/-- Return value of a helper run, `none` if it raised. -/
def retOf : Except Err HRes → Option Bool
  | .ok r => r.ret
  | .error _ => none

/-- Final world of a helper run (the initial world if it raised). -/
def worldOf (w : World) : Except Err HRes → World
  | .ok r => r.world
  | .error _ => w

/-- Printed output of a helper run (`[]` if it raised). -/
def outOf : Except Err HRes → List String
  | .ok r => r.out
  | .error _ => []

/-- `true` iff the helper returned without raising. -/
def okB : Except Err HRes → Bool
  | .ok _ => true
  | .error _ => false

/-- `helper.install_pyomo`. -/
def install_pyomo (ex : String → World → World) (w : World) : Except Err HRes :=
  let (found, o1) := package_found w "pyomo"
  if found then .ok ⟨some true, w, o1⟩
  else
    let o2 := ["Installing pyomo from idaes_pse via pip ... "]
    let w1 := ex "pip install -q idaes_pse" w
    let (r, o3) := package_confirm w1 "pyomo"
    .ok ⟨some r, w1, o1 ++ o2 ++ o3⟩

/-- `helper.install_idaes` (bare `return` when already installed). -/
def install_idaes (ex : String → World → World) (w : World) : Except Err HRes :=
  let (found, o1) := package_found w "idaes"
  if found then .ok ⟨none, w, o1⟩
  else
    let o2 := ["Installing idaes from idaes_pse via pip ... "]
    let w1 := ex "pip install -q idaes_pse" w
    let (r, o3) := package_confirm w1 "idaes"
    .ok ⟨some r, w1, o1 ++ o2 ++ o3⟩

/-- World after `install_ipopt`'s first (idaes get-extensions) stage. -/
def ipopt_stage1 (ex : String → World → World) (colab : Bool) (w : World) : World :=
  if colab then
    ex "ln -s /root/.idaes/bin/k_aug k_aug"
      (ex "ln -s /root/.idaes/bin/ipopt ipopt" (ex "idaes get-extensions" w))
  else w

/-- `helper.install_ipopt`: two-stage attempt; note that when the first
`package_confirm` fails its "installation failed" message has already been
printed before the second stage runs. -/
def install_ipopt (ex : String → World → World) (colab : Bool) (w : World) :
    Except Err HRes :=
  let (found, o1) := package_found w "ipopt"
  if found then .ok ⟨some true, w, o1⟩
  else
    let oA := if colab then
        ["Installing ipopt and k_aug on Google Colab via idaes get-extensions ... "]
      else []
    let w1 := ipopt_stage1 ex colab w
    let (r1, oB) := package_confirm w1 "ipopt"
    if r1 then .ok ⟨some true, w1, o1 ++ oA ++ oB⟩
    else
      let (w2, oC) :=
        if colab then
          (ex "!unzip -o -q ipopt-linux64"
            (ex "wget -N -q \"https://ampl.com/dl/open/ipopt/ipopt-linux64.zip\"" w1),
           ["Installing ipopt on Google Colab via zip file ... "])
        else (ex "conda install -c conda-forge ipopt" w1,
           ["Installing Ipopt via conda ... "])
      let (r2, oD) := package_confirm w2 "ipopt"
      .ok ⟨some r2, w2, o1 ++ oA ++ oB ++ oC ++ oD⟩

/-- `helper.install_glpk`. -/
def install_glpk (ex : String → World → World) (colab : Bool) (w : World) :
    Except Err HRes :=
  let (found, o1) := package_found w "glpk"
  if found then .ok ⟨some true, w, o1⟩
  else
    let (w1, o2) :=
      if colab then (ex "apt-get install -y -qq glpk-utils" w,
        ["Installing glpk on Google Colab via apt-get ... "])
      else (ex "conda install -c conda-forge glpk" w,
        ["Installing glpk via conda ... "])
    let (r, o3) := package_confirm w1 "glpk"
    .ok ⟨some r, w1, o1 ++ o2 ++ o3⟩

/-- `helper.install_cbc`. -/
def install_cbc (ex : String → World → World) (colab : Bool) (w : World) :
    Except Err HRes :=
  let (found, o1) := package_found w "cbc"
  if found then .ok ⟨some true, w, o1⟩
  else
    let (w1, o2) :=
      if colab then
        (ex "unzip -o -q cbc-linux64"
          (ex "wget -N -q \"https://ampl.com/dl/open/cbc/cbc-linux64.zip\"" w),
         ["Installing cbc on Google Colab via zip file ... "])
      else (ex "apt-get install -y -qq coinor-cbc" w,
        ["Installing cbc via apt-get ... "])
    let (r, o3) := package_confirm w1 "cbc"
    .ok ⟨some r, w1, o1 ++ o2 ++ o3⟩

/-- `helper.install_bonmin`. -/
def install_bonmin (ex : String → World → World) (colab : Bool) (w : World) :
    Except Err HRes :=
  let (found, o1) := package_found w "bonmin"
  if found then .ok ⟨some true, w, o1⟩
  else
    let (w1, o2) :=
      if colab then
        (ex "unzip -o -q bonmin-linux64"
          (ex "wget -N -q \"https://ampl.com/dl/open/bonmin/bonmin-linux64.zip\"" w),
         ["Installing bonmin on Google Colab via zip file ... "])
      else (w, ["No procedure implemented to install bonmin ... "])
    let (r, o3) := package_confirm w1 "bonmin"
    .ok ⟨some r, w1, o1 ++ o2 ++ o3⟩

/-- `helper.install_couenne` (bare `return` when already installed). -/
def install_couenne (ex : String → World → World) (colab : Bool) (w : World) :
    Except Err HRes :=
  let (found, o1) := package_found w "couenne"
  if found then .ok ⟨none, w, o1⟩
  else
    let (w1, o2) :=
      if colab then
        (ex "unzip -o -q couenne-linux64"
          (ex "wget -N -q \"https://ampl.com/dl/open/couenne/couenne-linux64.zip\"" w),
         ["Installing couenne on Google Colab via via zip file ... "])
      else (w, ["No procedure implemented to install couenne ... "])
    let (r, o3) := package_confirm w1 "couenne"
    .ok ⟨some r, w1, o1 ++ o2 ++ o3⟩

/-- `helper.install_gecode` (bare `return` when already installed). -/
def install_gecode (ex : String → World → World) (colab : Bool) (w : World) :
    Except Err HRes :=
  let (found, o1) := package_found w "gecode"
  if found then .ok ⟨none, w, o1⟩
  else
    let (w1, o2) :=
      if colab then
        (ex "unzip -o -q gecode-linux64"
          (ex "wget -N -q \"https://ampl.com/dl/open/gecode/gecode-linux64.zip\"" w),
         ["Installing gecode on Google Colab via via zip file ... "])
      else (w, ["No procedure implemented to install gecode ... "])
    let (r, o3) := package_confirm w1 "gecode"
    .ok ⟨some r, w1, o1 ++ o2 ++ o3⟩

/-- `helper.install_scip`.  On Colab, when `condacolab` is not importable,
the code runs `pip install -q condacolab` and then re-imports `condacolab`
*outside* any `try`: if the module is still not importable the `ImportError`
propagates.  `condacolab.install()` is modelled as one more opaque effect. -/
def install_scip (ex : String → World → World) (colab : Bool) (w : World) :
    Except Err HRes :=
  let (found, o1) := package_found w "scip"
  if found then .ok ⟨none, w, o1⟩
  else
    if colab then
      let o2 := ["Installing scip on Google Colab via conda ... "]
      if w.imp "condacolab" then
        let w2 := ex "conda install -y pyscipopt" w
        let (r, o3) := package_confirm w2 "scip"
        .ok ⟨some r, w2, o1 ++ o2 ++ o3⟩
      else
        let w1 := ex "pip install -q condacolab" w
        if w1.imp "condacolab" then
          let w2 := ex "conda install -y pyscipopt" (ex "condacolab.install()" w1)
          let (r, o3) := package_confirm w2 "scip"
          .ok ⟨some r, w2, o1 ++ o2 ++ o3⟩
        else .error .importError
    else
      let (r, o3) := package_confirm w "scip"
      .ok ⟨some r, w, o1 ++ o3⟩

/-- `helper.install_gurobi`: both imports of `gurobipy` are wrapped in
`try`/`except ImportError`. -/
def install_gurobi (ex : String → World → World) (colab : Bool) (w : World) :
    Except Err HRes :=
  if w.imp "gurobipy" then .ok ⟨none, w, ["gurobi was previously installed"]⟩
  else
    let (w1, o1) :=
      if colab then (ex "pip install gurobipy" w,
        ["Installing gurobi on Google Colab via pip ... "])
      else (w, ["Consult gurobi.com for installation procedures ... "])
    if w1.imp "gurobipy" then .ok ⟨some true, w1, o1 ++ ["installation successful"]⟩
    else .ok ⟨some false, w1, o1 ++ ["installation failed"]⟩

/-- `helper.install_cplex`. -/
def install_cplex (ex : String → World → World) (colab : Bool) (w : World) :
    Except Err HRes :=
  if w.imp "cplex" then .ok ⟨none, w, ["cplex was previously installed"]⟩
  else
    let (w1, o1) :=
      if colab then (ex "pip install cplex" w,
        ["Installing cplex on Google Colab via pip ... "])
      else (w, ["Consult ibm.com for installation procedures ... "])
    if w1.imp "cplex" then .ok ⟨some true, w1, o1 ++ ["installation successful"]⟩
    else .ok ⟨some false, w1, o1 ++ ["installation failed"]⟩

/-- `helper.install_mosek`: note the failure message is
`"installation failed."` with a trailing period. -/
def install_mosek (ex : String → World → World) (colab : Bool) (w : World) :
    Except Err HRes :=
  if w.imp "mosek.fusion" then .ok ⟨none, w, ["mosek was previously installed"]⟩
  else
    let (w1, o1) :=
      if colab then (ex "pip install mosek" w,
        ["Installing mosek on Google Colab via pip ... "])
      else (w, ["Consult docs.mosek.com for installation procedures ... "])
    if w1.imp "mosek.fusion" then .ok ⟨some true, w1, o1 ++ ["installation successful"]⟩
    else .ok ⟨some false, w1, o1 ++ ["installation failed."]⟩

/-- `helper.install_xpress`. -/
def install_xpress (ex : String → World → World) (colab : Bool) (w : World) :
    Except Err HRes :=
  if w.imp "xpress" then .ok ⟨none, w, ["Xpress was previously installed"]⟩
  else
    let (w1, o1) :=
      if colab then (ex "pip install xpress" w,
        ["Installing xpress on Google Colab via pip ... "])
      else (ex "conda install -c fico-xpress xpress" w,
        ["Installing xpress via conda ... "])
    if w1.imp "xpress" then .ok ⟨some true, w1, o1 ++ ["installation successful"]⟩
    else .ok ⟨some false, w1, o1 ++ ["installation failed"]⟩

/-- A concluding pass/fail message, including `install_mosek`'s variant
with a trailing period. -/
def concluding (s : String) : Bool :=
  s == "installation successful" || s == "installation failed" ||
  s == "installation failed."

/-- A concluding message exactly as the spec quotes them (no period). -/
def concludingStrict (s : String) : Bool :=
  s == "installation successful" || s == "installation failed"

/-! ## The notebook filename regex `REG` of `tools/__main__.py` and
`tools/generate_contents.py`:
`re.compile(r'(\d\d|[A-Z])\.(\d\d)-(.*)\.ipynb')`, used through
`REG.match(filename)`, which anchors at the start but not at the end. -/

/-- The characters of the literal `".ipynb"`. -/
def ipynbLit : List Char := ['.', 'i', 'p', 'y', 'n', 'b']

/-- Backtracking scan for the regex tail `(.*)\.ipynb`: true iff some
newline-free prefix is followed by the literal ".ipynb" (the greedy `.*`
only affects which split is captured, not whether a match exists). -/
def titleTail : List Char → Bool
  | [] => false
  | c :: rest => ipynbLit.isPrefixOf (c :: rest) || (c != '\n' && titleTail rest)

/-- Group 1 `(\d\d|[A-Z])`: two digits, or else one capital letter.  The
alternatives are disjoint on the first character, so the regex engine's
backtracking order does not matter. -/
def chapterSplit : List Char → Option (List Char × List Char)
  | [] => none
  | [c] => if c.isUpper then some ([c], []) else none
  | c1 :: c2 :: rest =>
      if c1.isDigit && c2.isDigit then some ([c1, c2], rest)
      else if c1.isUpper then some ([c1], c2 :: rest) else none

/-- `REG.match(s)` reduced to its two used groups (chapter, section);
`some` exactly when the regex matches a prefix of `s`. -/
def REGmatch (s : String) : Option (String × String) :=
  match chapterSplit s.data with
  | none => none
  | some (ch, rest) =>
    match rest with
    | '.' :: d1 :: d2 :: '-' :: rest2 =>
        if d1.isDigit && d2.isDigit && titleTail rest2 then
          some (String.mk ch, String.mk [d1, d2])
        else none
    | _ => none

/-- `if REG.match(filename)`: the selection test used by
`nbcollection.__init__` and `iter_notebooks`. -/
def REGselect (s : String) : Bool := (REGmatch s).isSome

/-! ## Notebook model (`tools/__main__.py`, `tools/generate_contents.py`,
`tools/configure.py`) -/

/-- An `nbformat` cell: its type tag and source text. -/
structure Cell where
  cell_type : String
  source : String
  deriving DecidableEq, Repr

/-- `nbformat.v4.nbbase.new_markdown_cell`. -/
def new_markdown_cell (s : String) : Cell := ⟨"markdown", s⟩

/-- A notebook as the tooling sees it: its filename inside `notebooks/`
and its cell list.  The derived attributes (`path`, `url`, chapter and
section, title, ...) are pure functions of these two fields. -/
structure NB where
  filename : String
  cells : List Cell
  deriving DecidableEq, Repr

/-! Constants from `tools/configure.py` and `tools/__main__.py`. -/

def GITHUB_USER : String := "jckantor"

def GITHUB_REPO : String := "ND-Pyomo-Cookbook"

def PAGE_TITLE : String := "ND Pyomo Cookbook"

def PAGE_URL : String := "http://jckantor.github.io/ND-Pyomo-Cookbook/"

/-- `configure.NOTEBOOK_HEADER_CONTENT` (exact text). -/
def NOTEBOOK_HEADER_CONTENT : String :=
  "\n*This notebook contains material from [ND Pyomo Cookbook](http://jckantor.github.io/ND-Pyomo-Cookbook/) by \nJeffrey Kantor (jeff at nd.edu); the content is available [on GitHub](https://github.com/jckantor/ND-Pyomo-Cookbook).\n*The text is released under the [CC-BY-NC-ND-4.0 license](https://creativecommons.org/licenses/by-nc-nd/4.0/legalcode),\nand code is released under the [MIT license](https://opensource.org/licenses/MIT).*\n"

/-- `configure.README_HEADER` (exact text). -/
def README_HEADER : String :=
  "\n# ND Pyomo Cookbook\n\nThis **ND Pyomo Cookbook** is a collection of notebooks with information and recipes for the use of \n[Pyomo](http://www.pyomo.org/) to solve modeling and optimization problems. With Pyomo, one can embed an \noptimization model consisting of **decision variables**, **constraints**, and an optimization **objective** within\nPython. Pyomo includes a rich set of features to enable modeling of complex systems.\n\nThe notebooks in this collection were developed for instructional purposes at Notre Dame. The notebooks were originally\ndeveloped using the [Anaconda distribution of Python](https://www.anaconda.com/download/). They have been subsequently\nupdated to open in [Google Colaboratory](https://colab.research.google.com/) where they can be run in a browser window.\n\nPyomoFest at Notre Dame was held June 5-7, 2018. This repository contains the \n[agenda](https://github.com/jckantor/ND-Pyomo-Cookbook/tree/master/PyomoFest/PyomoFest.md), \n[slides](https://github.com/jckantor/ND-Pyomo-Cookbook/tree/master/PyomoFest/slides) and\n[exercises](https://github.com/jckantor/ND-Pyomo-Cookbook/tree/master/PyomoFest/exercises_wo_soln/exercises)\ndistributed during that event.\n"

def README_FOOTER : String := "\n"

def TOC_HEADER : String := "# [" ++ PAGE_TITLE ++ "](" ++ PAGE_URL ++ ")"

def NBVIEWER_BASE_URL : String :=
  "http://nbviewer.jupyter.org/github/" ++ GITHUB_USER ++ "/" ++ GITHUB_REPO ++
    "/blob/master/notebooks/"

def README_TOC : String :=
  "### [Table of Contents](" ++ NBVIEWER_BASE_URL ++ "toc.ipynb?flush=true)"

def NOTEBOOK_HEADER_TAG : String := "<!--NOTEBOOK_HEADER-->"

def NOTEBOOK_HEADER : String := NOTEBOOK_HEADER_TAG ++ NOTEBOOK_HEADER_CONTENT

def NAVBAR_TAG : String := "<!--NAVIGATION-->\n"

def CONTENTS : String := "| [Contents](toc.ipynb) |"

/-- The text of `COLAB_LINK` before the `notebook_filename` placeholder. -/
def COLAB_LINK_PRE : String :=
  "<p><a href=\"https://colab.research.google.com/github/" ++ GITHUB_USER ++ "/" ++
    GITHUB_REPO ++ "/blob/master/notebooks/"

/-- The text of `COLAB_LINK` after the `notebook_filename` placeholder. -/
def COLAB_LINK_POST : String :=
  "\"><img align=\"left\" src=\"https://colab.research.google.com/assets/colab-badge.svg\" alt=\"Open in Colab\" title=\"Open in Google Colaboratory\"></a>"

/-- Python `os.path.basename`. -/
def pyBasename (f : String) : String :=
  String.mk ((f.data.reverse.takeWhile (fun c => c ≠ '/')).reverse)

/-- `nb.colab_link`: `COLAB_LINK.format(notebook_filename=os.path.basename(filename))`. -/
def colab_link (filename : String) : String :=
  COLAB_LINK_PRE ++ pyBasename filename ++ COLAB_LINK_POST

/-- `nb.url = os.path.join(NBVIEWER_BASE_URL, filename)`. -/
def nbUrl (nb : NB) : String := pyPathJoin NBVIEWER_BASE_URL nb.filename

/-- The condition of `nb.title` / `get_notebook_title`: first markdown cell
whose source starts with `#`. -/
def isTitleCell (c : Cell) : Bool :=
  c.cell_type == "markdown" && pyStartsWith "#" c.source

/-- `nb.title` (and `get_notebook_title`): first line of the first `#`
markdown cell, with the leading `#` removed and stripped; `None` when no
such cell exists; raises `IndexError` when `source[1:]` has no lines at
all (source exactly `"#"`), because `splitlines()[0]` indexes an empty
list. -/
def nbTitle (cells : List Cell) : Except Err (Option String) :=
  match cells.find? isTitleCell with
  | none => .ok none
  | some c =>
    match pySplitlines (c.source.drop 1) with
    | [] => .error .indexError
    | l :: _ => .ok (some (pyStrip l))

/-- The title as the spec's sentence describes it: the first line (the empty
string when there is none) of `source[1:]`, stripped; total. -/
def titleSpec (cells : List Cell) : Option String :=
  (cells.find? isTitleCell).map
    (fun c => pyStrip ((pySplitlines (c.source.drop 1)).headD ""))

/-- The title a notebook contributes to generated text, with a raising
title read as `None` (used only under hypotheses that rule the error out). -/
def titleOrNone (nb : NB) : Option String :=
  match nbTitle nb.cells with
  | .ok t => t
  | .error _ => none

/-- `nb.write_header`: amend the first cell if it is tagged as a header,
else prepend a fresh markdown header cell; `none` models the `IndexError`
of `cells[0]` on an empty cell list.  The notebook is then written back to
`self.path`, which is never reassigned. -/
def write_header (cells : List Cell) : Option (List Cell) :=
  match cells with
  | [] => none
  | c0 :: rest =>
      if pyStartsWith NOTEBOOK_HEADER_TAG c0.source then
        some ({ c0 with source := NOTEBOOK_HEADER } :: rest)
      else
        some (new_markdown_cell NOTEBOOK_HEADER :: c0 :: rest)

/-- `nb.write_header` at the notebook level: the filename (hence the path
written to) is untouched. -/
def nb_write_header (nb : NB) : Option NB :=
  (write_header nb.cells).map (fun cs => { nb with cells := cs })

/-- `nb.write_navbar`.  Python iterates over the two-element snapshot
`[cells[1], cells[-1]]` of cell objects and mutates the list while doing
so; `none` models the `IndexError` of `cells[1]` when the notebook has
fewer than two cells.  The first iteration amends `cells[1]` in place when
it carries the navigation tag and otherwise inserts a fresh markdown cell
at index 1.  The object the second iteration works on is the original last
cell; in every case it is still the final element of the mutated list (for
a two-cell notebook it is the very object the first iteration may have
amended), and when it lacks the tag the insertion again happens at index 1,
never at the end. -/
def write_navbar (nav : String) (cells : List Cell) : Option (List Cell) :=
  match cells with
  | c0 :: c1 :: rest =>
      let step1 : List Cell :=
        if pyStartsWith NAVBAR_TAG c1.source then
          c0 :: { c1 with source := nav } :: rest
        else
          c0 :: new_markdown_cell nav :: c1 :: rest
      match step1 with
      | d0 :: ds =>
          let lst := (d0 :: ds).getLast (List.cons_ne_nil d0 ds)
          if pyStartsWith NAVBAR_TAG lst.source then
            some ((d0 :: ds).dropLast ++ [{ lst with source := nav }])
          else some (d0 :: new_markdown_cell nav :: ds)
      | [] => none
  | _ => none

/-- `nb.numbered_title` on the regex groups and the (optional) title. -/
def numberedTitleCore (ch sec : String) (t : Option String) : String :=
  if pyIn ch "00" then pyStr t
  else if pyIsdigit ch && !(pyIn ch "00") then
    (if pyIn sec "00" then "Chapter " ++ toString (pyInt ch) ++ ". " ++ pyStr t
     else toString (pyInt ch) ++ "." ++ toString (pyInt sec) ++ " " ++ pyStr t)
  else
    (if pyIn sec "00" then "Appendix " ++ ch ++ ". " ++ pyStr t
     else ch ++ "." ++ toString (pyInt sec) ++ " " ++ pyStr t)

/-- `nb.numbered_title`; `attrError` stands for the `AttributeError` that
`nb.__init__` would already have raised on a non-matching filename
(`REG.match(filename).groups()` on `None`). -/
def nbNumberedTitle (nb : NB) : Except Err String :=
  match REGmatch nb.filename with
  | none => .error .attrError
  | some (ch, sec) => (nbTitle nb.cells).map (numberedTitleCore ch sec)

/-- `nb.link`; the source really does close the link with `]` instead of
`)`. -/
def nbLink (nb : NB) : Except Err String :=
  (nbNumberedTitle nb).map (fun nt => "[" ++ nt ++ "](" ++ nbUrl nb ++ "]")

/-- `nb.readme`. -/
def nbReadme (nb : NB) : Except Err String :=
  match REGmatch nb.filename with
  | none => .error .attrError
  | some (_, sec) =>
    (nbLink nb).map (fun l => if !(pyIn sec "00") then "- " ++ l else "\n### " ++ l)

/-- The sub-header cells collected by `nb.toc`: markdown cells whose source
starts with `##`. -/
def isSubHeaderCell (c : Cell) : Bool :=
  c.cell_type == "markdown" && pyStartsWith "##" c.source

/-- One `nb.toc` bullet: `header = first line, stripped, split on
whitespace`; indentation is four spaces per unit of
`len(header[0]) - 2`. -/
def tocEntryFor (url : String) (c : Cell) : String :=
  let header := pySplitWS (pyStrip ((pySplitlines c.source).headD ""))
  let headTok := header.headD ""
  let txt := String.intercalate " " (header.drop 1)
  let entryUrl := url ++ "#" ++ String.intercalate "-" (header.drop 1)
  String.mk (List.replicate (4 * (headTok.length - 2)) ' ') ++
    "- [" ++ txt ++ "](" ++ entryUrl ++ ")"

/-- The list `nb.toc`, given the section group and the built link. -/
def nbTocCore (sec : String) (link : String) (nb : NB) : List String :=
  (if !(pyIn sec "00") then "### " ++ link else "\n## " ++ link) ::
    (nb.cells.filter isSubHeaderCell).map (tocEntryFor (nbUrl nb))

/-- `nb.toc`. -/
def nbToc (nb : NB) : Except Err (List String) :=
  match REGmatch nb.filename with
  | none => .error .attrError
  | some (_, sec) => (nbLink nb).map (fun l => nbTocCore sec l nb)

/-! The `FIG` and `LINK` regular expressions of `nb.figs` / `nb.links`,
`re.findall` with lazy groups:
`FIG = (?:!\[(.*?)\]\((.*?)\))` and `LINK = (?:[^!]\[(.*?)\]\((.*?)\))`. -/

/-- Lazy `(.*?)\]\(`: shortest newline-free prefix followed by `](`. -/
def findAlt : List Char → Option (List Char × List Char)
  | [] => none
  | ']' :: '(' :: rest => some ([], rest)
  | c :: rest =>
      if c = '\n' then none
      else (findAlt rest).map (fun p => (c :: p.1, p.2))

/-- Lazy `(.*?)\)`: shortest newline-free prefix followed by `)`. -/
def findUrl : List Char → Option (List Char × List Char)
  | [] => none
  | ')' :: rest => some ([], rest)
  | c :: rest =>
      if c = '\n' then none
      else (findUrl rest).map (fun p => (c :: p.1, p.2))

/-- Match of `FIG` anchored at the current position. -/
def figMatchAt : List Char → Option ((String × String) × List Char)
  | '!' :: '[' :: rest =>
      match findAlt rest with
      | none => none
      | some (a, rest2) =>
        match findUrl rest2 with
        | none => none
        | some (b, rest3) => some ((String.mk a, String.mk b), rest3)
  | _ => none

/-- Match of `LINK` anchored at the current position (`[^!]` consumes one
character, so a link at the very start of the source never matches). -/
def linkMatchAt : List Char → Option ((String × String) × List Char)
  | c :: '[' :: rest =>
      if c = '!' then none
      else
        match findAlt rest with
        | none => none
        | some (a, rest2) =>
          match findUrl rest2 with
          | none => none
          | some (b, rest3) => some ((String.mk a, String.mk b), rest3)
  | _ => none

/-- `re.findall(FIG, ...)`: left-to-right, non-overlapping scan.  The fuel
starts at the text length, which bounds the number of scan steps since each
step consumes at least one character. -/
def figScan : Nat → List Char → List (String × String)
  | 0, _ => []
  | _ + 1, [] => []
  | fuel + 1, c :: rest =>
      match figMatchAt (c :: rest) with
      | some (p, rest2) => p :: figScan fuel rest2
      | none => figScan fuel rest

/-- `re.findall(FIG, s)`. -/
def figFindall (s : String) : List (String × String) := figScan s.data.length s.data

/-- `re.findall(LINK, ...)` scan. -/
def linkScan : Nat → List Char → List (String × String)
  | 0, _ => []
  | _ + 1, [] => []
  | fuel + 1, c :: rest =>
      match linkMatchAt (c :: rest) with
      | some (p, rest2) => p :: linkScan fuel rest2
      | none => linkScan fuel rest

/-- `re.findall(LINK, s)`. -/
def linkFindall (s : String) : List (String × String) := linkScan s.data.length s.data

/-- `nb.figs`: `FIG` matches over all markdown cells. -/
def nbFigs (nb : NB) : List (String × String) :=
  (((nb.cells.filter (fun c => c.cell_type == "markdown")).map
    (fun c => figFindall c.source))).flatten

/-- `nb.links`: `LINK` matches over the markdown cells of `cells[2:-1]`
only — the header cell, the navigation cell at index 1 and the final cell
are excluded. -/
def nbLinks (nb : NB) : List (String × String) :=
  ((((nb.cells.drop 2).dropLast.filter (fun c => c.cell_type == "markdown")).map
    (fun c => linkFindall c.source))).flatten

/-- One `* Figures` line: `txt if txt else url`. -/
def figLine (p : String × String) : String :=
  "    - [" ++ (if p.1 == "" then p.2 else p.1) ++ "](" ++ p.2 ++ ")\n"

/-- One `* Links` line. -/
def linkLine (p : String × String) : String :=
  "    - [" ++ p.1 ++ "](" ++ p.2 ++ ")\n"

/-- The part of `nbcollection.write_toc` contributed by one notebook. -/
def tocBlockOf (nb : NB) : Except Err String :=
  (nbToc nb).map (fun t =>
    "\n" ++ String.intercalate "\n" t ++ "\n" ++
    (if (nbFigs nb).isEmpty then "" else
       "* Figures\n" ++ String.join ((nbFigs nb).map figLine)) ++
    (if (nbLinks nb).isEmpty then "" else
       "* Links\n" ++ String.join ((nbLinks nb).map linkLine)))

/-- `nbcollection.write_toc`: the content of `toc.md`, and `toc.ipynb`
modelled as the result of the external `notedown` converter (an arbitrary
function parameter) applied to that content. -/
def write_toc (notedown : String → String) (l : List NB) :
    Except Err (String × String) :=
  (l.mapM tocBlockOf).map (fun blocks =>
    let content := TOC_HEADER ++ "\n" ++ String.join blocks
    (content, notedown content))

/-- `nbcollection.write_readme`: the content written to `README.md`. -/
def write_readme (l : List NB) : Except Err String :=
  (l.mapM nbReadme).map (fun rs =>
    README_HEADER ++ README_TOC ++ String.intercalate "\n" rs ++ "\n" ++ README_FOOTER)

/-- `PREV_TEMPLATE.format(title=prev_nb.title, url=prev_nb.url) if prev_nb
else ''`; evaluating the title can raise (see `nbTitle`). -/
def prevPart : Option NB → Except Err String
  | none => .ok ""
  | some p => (nbTitle p.cells).map (fun t => "< [" ++ pyStr t ++ "](" ++ nbUrl p ++ ") ")

/-- `NEXT_TEMPLATE.format(...) if next_nb else ''`. -/
def nextPart : Option NB → Except Err String
  | none => .ok ""
  | some q => (nbTitle q.cells).map (fun t => " [" ++ pyStr t ++ "](" ++ nbUrl q ++ ") >")

/-- The navbar string `nbcollection.write_navbars` assembles for one
notebook from its neighbours. -/
def mkNavbar (p : Option NB) (n : NB) (q : Option NB) : Except Err String := do
  let pp ← prevPart p
  let qq ← nextPart q
  return NAVBAR_TAG ++ pp ++ CONTENTS ++ qq ++ colab_link n.filename

/-- Three-way zip, truncating at the shortest list (as Python `zip`). -/
def zip3 {α β γ : Type} : List α → List β → List γ → List (α × β × γ)
  | a :: as, b :: bs, c :: cs => (a, b, c) :: zip3 as bs cs
  | _, _, _ => []

/-- The `(prev, nb, next)` triples of `write_navbars`:
`zip(chain([None], a), b, chain(c, [None]))` after `next(c)`. -/
def navTriples (l : List NB) : List (Option NB × NB × Option NB) :=
  zip3 (none :: l.map some) l ((l.drop 1).map some ++ [none])

/-- The navbar strings computed by `nbcollection.write_navbars`, paired
with their notebooks.  On an empty collection `next(c)` raises
`StopIteration`. -/
def mkNavbars (l : List NB) : Except Err (List (NB × String)) :=
  match l with
  | [] => .error .stopIteration
  | _ :: _ => (navTriples l).mapM
      (fun t => (mkNavbar t.1 t.2.1 t.2.2).map (fun s => (t.2.1, s)))

/-- The prev link as spelled by `PREV_TEMPLATE` (total form, for statements
under no-raise hypotheses). -/
def prevLinkStr (p : NB) : String :=
  "< [" ++ pyStr (titleOrNone p) ++ "](" ++ nbUrl p ++ ") "

/-- The next link as spelled by `NEXT_TEMPLATE` (total form). -/
def nextLinkStr (q : NB) : String :=
  " [" ++ pyStr (titleOrNone q) ++ "](" ++ nbUrl q ++ ") >"

/-- `nbcollection.__init__`: keep the directory entries accepted by `REG`,
build notebooks, and sort them; `sorted` uses `<`, which Python resolves
through the reflected `nb.__gt__`, i.e. ascending filename order, with a
stable merge sort. -/
def nbcollection (files : List (String × List Cell)) : List NB :=
  ((files.filter (fun f => REGselect f.1)).map (fun f => NB.mk f.1 f.2)).mergeSort
    (fun a b => decide (a.filename ≤ b.filename))

/-- `generate_contents.iter_notebooks`: `sorted(f for f in listdir if
REG.match(f))`. -/
def iter_notebooks (names : List String) : List String :=
  (names.filter REGselect).mergeSort (fun a b => decide (a ≤ b))

/-- One line of `generate_contents.gen_contents` (the `yield`ed string);
`directory` as in `write_contents`. -/
def genContentsLine (directory : Option String) (nb : NB) : Except Err String :=
  match REGmatch nb.filename with
  | none => .error .attrError
  | some (ch, sec) =>
    (nbTitle nb.cells).map (fun t =>
      let nb_url := match directory with
        | some d => pyPathJoin d nb.filename
        | none => nb.filename
      if pyIsdigit ch then
        (if pyInt ch == 0 then
          (if pyIn sec "00" then "\n### [" ++ pyStr t ++ "](" ++ nb_url ++ ")"
           else "- [" ++ pyStr t ++ "](" ++ nb_url ++ ")")
         else
          (if pyIn sec "00" then
             "\n### [Chapter " ++ toString (pyInt ch) ++ ". " ++ pyStr t ++ "](" ++ nb_url ++ ")"
           else
             "- [" ++ toString (pyInt ch) ++ "." ++ toString (pyInt sec) ++ " " ++
               pyStr t ++ "](" ++ nb_url ++ ")"))
      else
        (if pyIn sec "00" then
           "\n### [Appendix " ++ ch ++ ". " ++ pyStr t ++ "](" ++ nb_url ++ ")"
         else
           "- [" ++ ch ++ "." ++ toString (pyInt sec) ++ " " ++ pyStr t ++
             "](" ++ nb_url ++ ")"))

/-! ### Claim C4 -/

/-- The navbar string for one notebook, in the total form used by
statements whose hypotheses rule out raising titles. -/
def navStrTotal (p : Option NB) (n : NB) (q : Option NB) : String :=
  NAVBAR_TAG ++
    (match p with | none => "" | some x => prevLinkStr x) ++
    CONTENTS ++
    (match q with | none => "" | some x => nextLinkStr x) ++
    colab_link n.filename

/-! ### Claim C6 -/

/-- Chapter group of a notebook's filename (defaulting for non-matching
names, which the hypotheses of the theorems below exclude). -/
def chapterOf (nb : NB) : String := ((REGmatch nb.filename).getD ("", "")).1

/-- Section group of a notebook's filename. -/
def sectionOf (nb : NB) : String := ((REGmatch nb.filename).getD ("", "")).2

/-- The numbered-title link of a notebook, total form. -/
def linkSpec (nb : NB) : String :=
  "[" ++ numberedTitleCore (chapterOf nb) (sectionOf nb) (titleOrNone nb) ++
    "](" ++ nbUrl nb ++ "]"

/-- The `toc.md` block of one notebook as the (amended) claim describes it:
its numbered title link line, one indented bullet per `##` markdown cell,
then a Figures list exactly when the notebook's markdown cells contain
image references, then a Links list exactly when the markdown cells of
`cells[2:-1]` contain markdown links. -/
def tocBlockSpec (nb : NB) : String :=
  "\n" ++
    String.intercalate "\n" (nbTocCore (sectionOf nb) (linkSpec nb) nb) ++ "\n" ++
    (if (nbFigs nb).isEmpty then "" else
      "* Figures\n" ++ String.join ((nbFigs nb).map figLine)) ++
    (if (nbLinks nb).isEmpty then "" else
      "* Links\n" ++ String.join ((nbLinks nb).map linkLine))

/-- The `README.md` line of one notebook as the claim describes it. -/
def readmeLineSpec (nb : NB) : String :=
  if !(pyIn (sectionOf nb) "00") then "- " ++ linkSpec nb
  else "\n### " ++ linkSpec nb

/-- A two-notebook sample collection used by witnesses. -/
def sampleNBs : List NB :=
  [⟨"01.01-A.ipynb", [new_markdown_cell "# A"]⟩,
   ⟨"02.01-B.ipynb", [new_markdown_cell "# B"]⟩]

/-- A notebook whose only markdown link sits in the navigation cell at
index 1 (which `nb.links` excludes). -/
def linkNB : NB :=
  ⟨"01.01-T.ipynb",
   [new_markdown_cell "<!--NOTEBOOK_HEADER--> x",
    new_markdown_cell "nav [Contents](toc.ipynb)",
    new_markdown_cell "# Title"]⟩

/-- Directory listing in one order. -/
def filesA : List (String × List Cell) :=
  [("02.01-B.ipynb", []), ("01.01-A.ipynb", [])]

/-- The same entries listed in the other order. -/
def filesB : List (String × List Cell) :=
  [("01.01-A.ipynb", []), ("02.01-B.ipynb", [])]

/-! ### Helper lemmas for the installation helpers -/

/-- `install_glpk` returns availability after the call. -/
lemma install_glpk_ret (ex : String → World → World) (colab : Bool) (w : World) :
    retOf (install_glpk ex colab w) =
      some (package_available (worldOf w (install_glpk ex colab w)) "glpk") := by
  unfold install_glpk package_found package_confirm
  cases h1 : package_available w "glpk" <;> cases hc : colab <;>
    simp [retOf, worldOf, h1] <;> split <;> simp_all [retOf, worldOf]

/-- `install_cbc` returns availability after the call. -/
lemma install_cbc_ret (ex : String → World → World) (colab : Bool) (w : World) :
    retOf (install_cbc ex colab w) =
      some (package_available (worldOf w (install_cbc ex colab w)) "cbc") := by
  unfold install_cbc package_found package_confirm
  cases h1 : package_available w "cbc" <;> cases hc : colab <;>
    simp [retOf, worldOf, h1] <;> split <;> simp_all [retOf, worldOf]

/-- `install_bonmin` returns availability after the call. -/
lemma install_bonmin_ret (ex : String → World → World) (colab : Bool) (w : World) :
    retOf (install_bonmin ex colab w) =
      some (package_available (worldOf w (install_bonmin ex colab w)) "bonmin") := by
  unfold install_bonmin package_found package_confirm
  cases h1 : package_available w "bonmin" <;> cases hc : colab <;>
    simp [retOf, worldOf, h1] <;> split <;> simp_all [retOf, worldOf]

/-- `install_ipopt` returns availability after the call. -/
lemma install_ipopt_ret (ex : String → World → World) (colab : Bool) (w : World) :
    retOf (install_ipopt ex colab w) =
      some (package_available (worldOf w (install_ipopt ex colab w)) "ipopt") := by
  unfold install_ipopt package_found package_confirm
  cases h1 : package_available w "ipopt"
  case true => simp [h1, retOf, worldOf]
  case false =>
  cases h2 : package_available (ipopt_stage1 ex colab w) "ipopt"
  case true => simp [h1, h2, retOf, worldOf]
  case false =>
  cases hc : colab
  case false =>
    rw [hc] at h2
    cases h3 : package_available
        (ex "conda install -c conda-forge ipopt" (ipopt_stage1 ex false w)) "ipopt" <;>
      simp [h1, h2, h3, retOf, worldOf]
  case true =>
    rw [hc] at h2
    cases h3 : package_available
        (ex "!unzip -o -q ipopt-linux64"
          (ex "wget -N -q \"https://ampl.com/dl/open/ipopt/ipopt-linux64.zip\""
            (ipopt_stage1 ex true w))) "ipopt" <;>
      simp [h1, h2, h3, retOf, worldOf]

/-- `install_couenne` returns `None` when already installed, else
availability after the attempt. -/
lemma install_couenne_ret (ex : String → World → World) (colab : Bool) (w : World) :
    retOf (install_couenne ex colab w) =
      (if package_available w "couenne" then none
       else some (package_available (worldOf w (install_couenne ex colab w)) "couenne")) := by
  unfold install_couenne package_found package_confirm
  cases h1 : package_available w "couenne" <;> cases hc : colab <;>
    simp [retOf, worldOf, h1] <;> split <;> simp_all [retOf, worldOf]

/-- `install_gecode` returns `None` when already installed, else
availability after the attempt. -/
lemma install_gecode_ret (ex : String → World → World) (colab : Bool) (w : World) :
    retOf (install_gecode ex colab w) =
      (if package_available w "gecode" then none
       else some (package_available (worldOf w (install_gecode ex colab w)) "gecode")) := by
  unfold install_gecode package_found package_confirm
  cases h1 : package_available w "gecode" <;> cases hc : colab <;>
    simp [retOf, worldOf, h1] <;> split <;> simp_all [retOf, worldOf]

/-! ### Claims C2 and C8 -/

/-- C2 (amended): the six solver installers report availability through their
return value, except that `install_couenne` and `install_gecode` return
Python `None` (not `True`) when the solver was already installed before the
call; in every other execution each of the six returns `True` exactly when
the solver is available after the attempted installation. -/
theorem claim_C2_install_return_codes
    (ex : String → World → World) (colab : Bool) (w : World) :
    retOf (install_ipopt ex colab w) =
      some (package_available (worldOf w (install_ipopt ex colab w)) "ipopt") ∧
    retOf (install_glpk ex colab w) =
      some (package_available (worldOf w (install_glpk ex colab w)) "glpk") ∧
    retOf (install_cbc ex colab w) =
      some (package_available (worldOf w (install_cbc ex colab w)) "cbc") ∧
    retOf (install_bonmin ex colab w) =
      some (package_available (worldOf w (install_bonmin ex colab w)) "bonmin") ∧
    retOf (install_couenne ex colab w) =
      (if package_available w "couenne" then none
       else some (package_available (worldOf w (install_couenne ex colab w)) "couenne")) ∧
    retOf (install_gecode ex colab w) =
      (if package_available w "gecode" then none
       else some (package_available (worldOf w (install_gecode ex colab w)) "gecode")) :=
  ⟨install_ipopt_ret ex colab w, install_glpk_ret ex colab w,
   install_cbc_ret ex colab w, install_bonmin_ret ex colab w,
   install_couenne_ret ex colab w, install_gecode_ret ex colab w⟩

/-- C2 counterexample: with couenne already installed, `install_couenne`
returns `None` even though the solver is available after the call, so it
does not return `True` in that case as claimed. -/
theorem claim_C2_counterexample :
    package_available
      ⟨fun s => s == "couenne", fun _ => false, fun _ => false⟩ "couenne" = true ∧
    package_available
      (worldOf ⟨fun s => s == "couenne", fun _ => false, fun _ => false⟩
        (install_couenne (fun _ w => w) false
          ⟨fun s => s == "couenne", fun _ => false, fun _ => false⟩)) "couenne" = true ∧
    retOf (install_couenne (fun _ w => w) false
      ⟨fun s => s == "couenne", fun _ => false, fun _ => false⟩) = none :=
  ⟨rfl, rfl, rfl⟩

/-- C8: `package_available` checks the executable `glpsol` for the package
name `"glpk"`, and the package's own name for every other package. -/
theorem claim_C8_package_available (w : World) :
    (package_available w "glpk" = (w.which "glpsol" || w.isfile "glpsol")) ∧
    (∀ p : String, p ≠ "glpk" → package_available w p = (w.which p || w.isfile p)) :=
  ⟨rfl, fun p hp => by simp [package_available, _check_available, hp]⟩

/-- C8 witness: evaluation at the package name `"cbc"`. -/
theorem claim_C8_witness :
    ("cbc" : String) ≠ "glpk" ∧
    package_available ⟨fun _ => true, fun _ => false, fun _ => false⟩ "cbc" =
      ((fun (_ : String) => true) "cbc" || (fun (_ : String) => false) "cbc" : Bool) :=
  ⟨by decide,
   (claim_C8_package_available ⟨fun _ => true, fun _ => false, fun _ => false⟩).2 "cbc"
     (by decide)⟩

/-- `install_pyomo` never raises and prints exactly one concluding message
when (and only when) an installation is attempted. -/
lemma install_pyomo_out (ex : String → World → World) (w : World) :
    okB (install_pyomo ex w) = true ∧
    (outOf (install_pyomo ex w)).countP concluding =
      (if package_available w "pyomo" then 0 else 1) := by
  unfold install_pyomo package_found package_confirm
  cases h1 : package_available w "pyomo" <;> simp [okB, outOf, h1, concluding] <;>
    (try split) <;> simp_all [okB, outOf, concluding]

/-- `install_idaes` never raises and prints exactly one concluding message
when an installation is attempted. -/
lemma install_idaes_out (ex : String → World → World) (w : World) :
    okB (install_idaes ex w) = true ∧
    (outOf (install_idaes ex w)).countP concluding =
      (if package_available w "idaes" then 0 else 1) := by
  unfold install_idaes package_found package_confirm
  cases h1 : package_available w "idaes" <;> simp [okB, outOf, h1, concluding] <;>
    (try split) <;> simp_all [okB, outOf, concluding]

/-- `install_glpk` never raises and prints exactly one concluding message
when an installation is attempted. -/
lemma install_glpk_out (ex : String → World → World) (colab : Bool) (w : World) :
    okB (install_glpk ex colab w) = true ∧
    (outOf (install_glpk ex colab w)).countP concluding =
      (if package_available w "glpk" then 0 else 1) := by
  unfold install_glpk package_found package_confirm
  cases h1 : package_available w "glpk" <;> cases hc : colab <;>
    simp [okB, outOf, h1, concluding] <;>
    (try split) <;> simp_all [okB, outOf, concluding]

/-- `install_cbc` never raises and prints exactly one concluding message
when an installation is attempted. -/
lemma install_cbc_out (ex : String → World → World) (colab : Bool) (w : World) :
    okB (install_cbc ex colab w) = true ∧
    (outOf (install_cbc ex colab w)).countP concluding =
      (if package_available w "cbc" then 0 else 1) := by
  unfold install_cbc package_found package_confirm
  cases h1 : package_available w "cbc" <;> cases hc : colab <;>
    simp [okB, outOf, h1, concluding] <;>
    (try split) <;> simp_all [okB, outOf, concluding]

/-- `install_bonmin` never raises and prints exactly one concluding message
when an installation is attempted. -/
lemma install_bonmin_out (ex : String → World → World) (colab : Bool) (w : World) :
    okB (install_bonmin ex colab w) = true ∧
    (outOf (install_bonmin ex colab w)).countP concluding =
      (if package_available w "bonmin" then 0 else 1) := by
  unfold install_bonmin package_found package_confirm
  cases h1 : package_available w "bonmin" <;> cases hc : colab <;>
    simp [okB, outOf, h1, concluding] <;>
    (try split) <;> simp_all [okB, outOf, concluding]

/-- `install_couenne` never raises and prints exactly one concluding message
when an installation is attempted. -/
lemma install_couenne_out (ex : String → World → World) (colab : Bool) (w : World) :
    okB (install_couenne ex colab w) = true ∧
    (outOf (install_couenne ex colab w)).countP concluding =
      (if package_available w "couenne" then 0 else 1) := by
  unfold install_couenne package_found package_confirm
  cases h1 : package_available w "couenne" <;> cases hc : colab <;>
    simp [okB, outOf, h1, concluding] <;>
    (try split) <;> simp_all [okB, outOf, concluding]

/-- `install_gecode` never raises and prints exactly one concluding message
when an installation is attempted. -/
lemma install_gecode_out (ex : String → World → World) (colab : Bool) (w : World) :
    okB (install_gecode ex colab w) = true ∧
    (outOf (install_gecode ex colab w)).countP concluding =
      (if package_available w "gecode" then 0 else 1) := by
  unfold install_gecode package_found package_confirm
  cases h1 : package_available w "gecode" <;> cases hc : colab <;>
    simp [okB, outOf, h1, concluding] <;>
    (try split) <;> simp_all [okB, outOf, concluding]

/-- `install_ipopt` never raises; it prints one concluding message when the
first confirmation succeeds, but two of them when the first confirmation
fails, because `package_confirm` has already printed "installation failed"
before the second installation stage runs. -/
lemma install_ipopt_out (ex : String → World → World) (colab : Bool) (w : World) :
    okB (install_ipopt ex colab w) = true ∧
    (outOf (install_ipopt ex colab w)).countP concluding =
      (if package_available w "ipopt" then 0
       else if package_available (ipopt_stage1 ex colab w) "ipopt" then 1 else 2) := by
  unfold install_ipopt package_found package_confirm
  cases h1 : package_available w "ipopt"
  case true => simp [h1, okB, outOf, concluding]
  case false =>
  cases h2 : package_available (ipopt_stage1 ex colab w) "ipopt"
  case true => simp [h1, h2, okB, outOf, concluding]
  case false =>
  cases hc : colab
  case false =>
    rw [hc] at h2
    cases h3 : package_available
        (ex "conda install -c conda-forge ipopt" (ipopt_stage1 ex false w)) "ipopt" <;>
      simp [h1, h2, h3, okB, outOf, concluding]
  case true =>
    rw [hc] at h2
    cases h3 : package_available
        (ex "!unzip -o -q ipopt-linux64"
          (ex "wget -N -q \"https://ampl.com/dl/open/ipopt/ipopt-linux64.zip\""
            (ipopt_stage1 ex true w))) "ipopt" <;>
      simp [h1, h2, h3, okB, outOf, concluding]

/-- `install_gurobi` never raises (its imports are guarded) and prints
exactly one concluding message when an installation is attempted. -/
lemma install_gurobi_out (ex : String → World → World) (colab : Bool) (w : World) :
    okB (install_gurobi ex colab w) = true ∧
    (outOf (install_gurobi ex colab w)).countP concluding =
      (if w.imp "gurobipy" then 0 else 1) := by
  unfold install_gurobi
  cases h1 : w.imp "gurobipy" <;> cases hc : colab <;>
    simp [okB, outOf, h1, concluding] <;>
    (try split_ifs) <;> simp_all [okB, outOf, concluding]

/-- `install_cplex` never raises and prints exactly one concluding message
when an installation is attempted. -/
lemma install_cplex_out (ex : String → World → World) (colab : Bool) (w : World) :
    okB (install_cplex ex colab w) = true ∧
    (outOf (install_cplex ex colab w)).countP concluding =
      (if w.imp "cplex" then 0 else 1) := by
  unfold install_cplex
  cases h1 : w.imp "cplex" <;> cases hc : colab <;>
    simp [okB, outOf, h1, concluding] <;>
    (try split_ifs) <;> simp_all [okB, outOf, concluding]

/-- `install_xpress` never raises and prints exactly one concluding message
when an installation is attempted. -/
lemma install_xpress_out (ex : String → World → World) (colab : Bool) (w : World) :
    okB (install_xpress ex colab w) = true ∧
    (outOf (install_xpress ex colab w)).countP concluding =
      (if w.imp "xpress" then 0 else 1) := by
  unfold install_xpress
  cases h1 : w.imp "xpress" <;> cases hc : colab <;>
    simp [okB, outOf, h1, concluding] <;>
    (try split_ifs) <;> simp_all [okB, outOf, concluding]

/-- `install_mosek` never raises and prints exactly one concluding message
when an installation is attempted — but its failure message is
"installation failed." (trailing period), so on failure it prints none of
the two messages quoted by the spec. -/
lemma install_mosek_out (ex : String → World → World) (colab : Bool) (w : World) :
    okB (install_mosek ex colab w) = true ∧
    (outOf (install_mosek ex colab w)).countP concluding =
      (if w.imp "mosek.fusion" then 0 else 1) ∧
    (outOf (install_mosek ex colab w)).countP concludingStrict =
      (if w.imp "mosek.fusion" then 0
       else if (worldOf w (install_mosek ex colab w)).imp "mosek.fusion" then 1 else 0) := by
  unfold install_mosek
  cases h1 : w.imp "mosek.fusion" <;> cases hc : colab <;>
    simp [okB, outOf, worldOf, h1, concluding, concludingStrict] <;>
    (try split_ifs) <;> simp_all [okB, outOf, worldOf, concluding, concludingStrict]

/-- `install_scip`: raises exactly when, on Colab, `condacolab` cannot be
imported even after `pip install -q condacolab`; when it returns it prints
exactly one concluding message if an installation was attempted. -/
lemma install_scip_out (ex : String → World → World) (colab : Bool) (w : World) :
    okB (install_scip ex colab w) =
      (package_available w "scip" || !colab || w.imp "condacolab" ||
        (ex "pip install -q condacolab" w).imp "condacolab") ∧
    (outOf (install_scip ex colab w)).countP concluding =
      (if package_available w "scip" then 0
       else if okB (install_scip ex colab w) then 1 else 0) := by
  unfold install_scip package_found package_confirm
  cases h1 : package_available w "scip"
  case true => simp [h1, okB, outOf, concluding]
  case false =>
  cases hc : colab
  case false =>
    simp [h1, okB, outOf, concluding] <;> (try split) <;>
      simp_all [okB, outOf, concluding]
  case true =>
  cases h2 : w.imp "condacolab"
  case true =>
    simp [h1, h2, okB, outOf, concluding] <;> (try split) <;>
      simp_all [okB, outOf, concluding]
  case false =>
  cases h3 : (ex "pip install -q condacolab" w).imp "condacolab" <;>
    simp [h1, h2, h3, okB, outOf, concluding] <;> (try split) <;>
      simp_all [okB, outOf, concluding]

/-! ### Claim C7 -/

/-- C7 (amended): no helper lets a failing shell command raise (`os.system`
never raises), and every helper except `install_scip` returns without an
exception; `install_scip` raises an `ImportError` exactly when, on Colab,
`condacolab` is not importable even after `pip install -q condacolab`.
After an installation attempt every returning helper prints exactly one
concluding pass/fail message, except `install_ipopt`, which prints two
when its first confirmation fails, and `install_mosek`, whose failure
message is "installation failed." with a trailing period rather than the
quoted "installation failed". -/
theorem claim_C7_helper_exceptions_and_messages
    (ex : String → World → World) (colab : Bool) (w : World) :
    (okB (install_pyomo ex w) = true ∧
     (outOf (install_pyomo ex w)).countP concluding =
       (if package_available w "pyomo" then 0 else 1)) ∧
    (okB (install_idaes ex w) = true ∧
     (outOf (install_idaes ex w)).countP concluding =
       (if package_available w "idaes" then 0 else 1)) ∧
    (okB (install_ipopt ex colab w) = true ∧
     (outOf (install_ipopt ex colab w)).countP concluding =
       (if package_available w "ipopt" then 0
        else if package_available (ipopt_stage1 ex colab w) "ipopt" then 1 else 2)) ∧
    (okB (install_glpk ex colab w) = true ∧
     (outOf (install_glpk ex colab w)).countP concluding =
       (if package_available w "glpk" then 0 else 1)) ∧
    (okB (install_cbc ex colab w) = true ∧
     (outOf (install_cbc ex colab w)).countP concluding =
       (if package_available w "cbc" then 0 else 1)) ∧
    (okB (install_bonmin ex colab w) = true ∧
     (outOf (install_bonmin ex colab w)).countP concluding =
       (if package_available w "bonmin" then 0 else 1)) ∧
    (okB (install_couenne ex colab w) = true ∧
     (outOf (install_couenne ex colab w)).countP concluding =
       (if package_available w "couenne" then 0 else 1)) ∧
    (okB (install_gecode ex colab w) = true ∧
     (outOf (install_gecode ex colab w)).countP concluding =
       (if package_available w "gecode" then 0 else 1)) ∧
    (okB (install_scip ex colab w) =
       (package_available w "scip" || !colab || w.imp "condacolab" ||
         (ex "pip install -q condacolab" w).imp "condacolab") ∧
     (outOf (install_scip ex colab w)).countP concluding =
       (if package_available w "scip" then 0
        else if okB (install_scip ex colab w) then 1 else 0)) ∧
    (okB (install_gurobi ex colab w) = true ∧
     (outOf (install_gurobi ex colab w)).countP concluding =
       (if w.imp "gurobipy" then 0 else 1)) ∧
    (okB (install_cplex ex colab w) = true ∧
     (outOf (install_cplex ex colab w)).countP concluding =
       (if w.imp "cplex" then 0 else 1)) ∧
    (okB (install_mosek ex colab w) = true ∧
     (outOf (install_mosek ex colab w)).countP concluding =
       (if w.imp "mosek.fusion" then 0 else 1) ∧
     (outOf (install_mosek ex colab w)).countP concludingStrict =
       (if w.imp "mosek.fusion" then 0
        else if (worldOf w (install_mosek ex colab w)).imp "mosek.fusion" then 1 else 0)) ∧
    (okB (install_xpress ex colab w) = true ∧
     (outOf (install_xpress ex colab w)).countP concluding =
       (if w.imp "xpress" then 0 else 1)) :=
  ⟨install_pyomo_out ex w, install_idaes_out ex w, install_ipopt_out ex colab w,
   install_glpk_out ex colab w, install_cbc_out ex colab w,
   install_bonmin_out ex colab w, install_couenne_out ex colab w,
   install_gecode_out ex colab w, install_scip_out ex colab w,
   install_gurobi_out ex colab w, install_cplex_out ex colab w,
   install_mosek_out ex colab w, install_xpress_out ex colab w⟩

/-- C7 counterexample: in a world with nothing installed and every command
a no-op, `install_ipopt` (off Colab) prints the concluding pass/fail
message twice, not exactly once; and `install_scip` on Colab propagates an
`ImportError` when `condacolab` remains unimportable after its pip install. -/
theorem claim_C7_counterexample :
    (outOf (install_ipopt (fun _ w => w) false
      ⟨fun _ => false, fun _ => false, fun _ => false⟩)).countP concluding = 2 ∧
    install_scip (fun _ w => w) true
      ⟨fun _ => false, fun _ => false, fun _ => false⟩ = .error .importError :=
  ⟨rfl, rfl⟩

/-- `titleTail` succeeds exactly on lists of the form
`t ++ ".ipynb" ++ r` with `t` newline-free. -/
lemma titleTail_iff (cs : List Char) :
    titleTail cs = true ↔
      ∃ t r, cs = t ++ ipynbLit ++ r ∧ ∀ c ∈ t, c ≠ '\n' := by
  constructor
  · induction cs with
    | nil => intro h; simp [titleTail] at h
    | cons c rest ih =>
      intro h
      rw [titleTail, Bool.or_eq_true] at h
      rcases h with h | h
      · rw [ List.isPrefixOf_iff_prefix] at h
        obtain ⟨r, hr⟩ := h
        exact ⟨[], r, by simp [hr.symm], by simp⟩
      · rw [Bool.and_eq_true] at h
        obtain ⟨t, r, hcs, hnl⟩ := ih h.2
        refine ⟨c :: t, r, by simp [hcs], ?_⟩
        intro x hx
        rcases List.mem_cons.1 hx with rfl | hx
        · simpa using h.1
        · exact hnl x hx
  · rintro ⟨t, r, rfl, hnl⟩
    induction t with
    | nil =>
      rw [List.nil_append]
      cases hlit : ipynbLit ++ r with
      | nil => simp [ipynbLit] at hlit
      | cons c rest =>
        rw [titleTail, Bool.or_eq_true]
        left
        rw [ List.isPrefixOf_iff_prefix, ← hlit]
        exact ⟨r, rfl⟩
    | cons c t ih =>
      rw [List.cons_append]
      simp only [titleTail]
      rw [Bool.or_eq_true]
      right
      rw [Bool.and_eq_true]
      refine ⟨?_, ih fun x hx => hnl x (List.mem_cons_of_mem c hx)⟩
      simpa using hnl c (List.mem_cons_self c t)

/-- Inversion for `chapterSplit`. -/
lemma chapterSplit_inv {cs ch rest : List Char}
    (h : chapterSplit cs = some (ch, rest)) :
    cs = ch ++ rest ∧
      ((ch.length = 2 ∧ ∀ c ∈ ch, c.isDigit) ∨ (∃ c, ch = [c] ∧ c.isUpper)) := by
  match cs with
  | [] => simp [chapterSplit] at h
  | [c] =>
    simp only [chapterSplit] at h
    split_ifs at h with hu
    rw [Option.some.injEq, Prod.mk.injEq] at h
    obtain ⟨rfl, rfl⟩ := h
    exact ⟨rfl, Or.inr ⟨c, rfl, hu⟩⟩
  | c1 :: c2 :: rest' =>
    simp only [chapterSplit] at h
    split_ifs at h with hd hu
    · rw [Option.some.injEq, Prod.mk.injEq] at h
      obtain ⟨rfl, rfl⟩ := h
      rw [Bool.and_eq_true] at hd
      refine ⟨rfl, Or.inl ⟨rfl, ?_⟩⟩
      intro c hc
      rcases List.mem_cons.1 hc with rfl | hc
      · exact hd.1
      · rcases List.mem_cons.1 hc with rfl | hc
        · exact hd.2
        · simp at hc
    · rw [Option.some.injEq, Prod.mk.injEq] at h
      obtain ⟨rfl, rfl⟩ := h
      exact ⟨rfl, Or.inr ⟨c1, rfl, hu⟩⟩

/-- C3 (amended): the selection test used on directory listings accepts a
filename exactly when a *prefix* of it matches `NN.NN-Title.ipynb`
(two-digit chapter) or `L.NN-Title.ipynb` (capital-letter appendix), with a
newline-free title; since `re.match` does not anchor at the end of the
string, trailing characters after ".ipynb" are allowed and a selected name
need not end with ".ipynb". -/
theorem claim_C3_selection_iff (s : String) :
    REGselect s = true ↔
      ∃ ch sec t r : List Char,
        s.data = ch ++ '.' :: (sec ++ '-' :: (t ++ ipynbLit ++ r)) ∧
        ((ch.length = 2 ∧ ∀ c ∈ ch, c.isDigit) ∨ (∃ c, ch = [c] ∧ c.isUpper)) ∧
        sec.length = 2 ∧ (∀ c ∈ sec, c.isDigit) ∧ (∀ c ∈ t, c ≠ '\n') := by
  constructor
  · intro h
    rw [REGselect, REGmatch] at h
    split at h
    · simp at h
    · rename_i ch rest hcs
      obtain ⟨heq, hch⟩ := chapterSplit_inv hcs
      split at h
      · rename_i d1 d2 rest2
        split_ifs at h with hcond
        · rw [Bool.and_eq_true, Bool.and_eq_true] at hcond
          obtain ⟨⟨hd1, hd2⟩, htail⟩ := hcond
          obtain ⟨t, r, hdec, hnl⟩ := (titleTail_iff rest2).1 htail
          refine ⟨ch, [d1, d2], t, r, ?_, hch, rfl, ?_, hnl⟩
          · rw [heq, hdec]; simp
          · intro c hc
            rcases List.mem_cons.1 hc with rfl | hc
            · exact hd1
            · rcases List.mem_cons.1 hc with rfl | hc
              · exact hd2
              · simp at hc
        · simp at h
      · simp at h
  · rintro ⟨ch, sec, t, r, hdec, hch, hlen, hdig, hnl⟩
    rw [REGselect, REGmatch]
    have htail : titleTail (t ++ ipynbLit ++ r) = true :=
      (titleTail_iff _).2 ⟨t, r, rfl, hnl⟩
    have htail2 : titleTail (t ++ (ipynbLit ++ r)) = true := by
      rw [← List.append_assoc]; exact htail
    rcases sec with _ | ⟨e1, _ | ⟨e2, _ | ⟨e3, sec⟩⟩⟩ <;> simp at hlen
    have he1 : e1.isDigit := hdig e1 (by simp)
    have he2 : e2.isDigit := hdig e2 (by simp)
    rcases hch with ⟨hl, hd⟩ | ⟨c, rfl, hu⟩
    · rcases ch with _ | ⟨c1, _ | ⟨c2, _ | ⟨c3, ch⟩⟩⟩ <;> simp at hl
      have hc1 : c1.isDigit := hd c1 (by simp)
      have hc2 : c2.isDigit := hd c2 (by simp)
      rw [hdec]
      simp only [List.cons_append, List.nil_append, chapterSplit]
      simp [hc1, hc2, he1, he2, htail2]
    · rw [hdec]
      simp only [List.cons_append, List.nil_append, chapterSplit]
      have hdot : ('.' : Char).isDigit = false := rfl
      simp [hdot, hu, he1, he2, htail2]

/-- C3 counterexample: `01.01-Foo.ipynb.bak` is selected by the tooling
even though it is not of the form `NN.NN-Title.ipynb` and does not end in
".ipynb". -/
theorem claim_C3_counterexample :
    REGselect "01.01-Foo.ipynb.bak" = true ∧
    ipynbLit.isSuffixOf "01.01-Foo.ipynb.bak".data = false :=
  ⟨by decide, by decide⟩

/-! ### Claims C1 and C5 -/

/-- C1 (evaluation at the failing input): on a two-cell notebook with no
navigation cells, `write_navbar` inserts the navigation cell twice at
indices 1 and 2 and leaves the final cell untouched, so the final cell is
not a navigation cell and the claimed invariant does not hold. -/
theorem claim_C1_write_navbar_eval :
    write_navbar ("<!--NAVIGATION-->\n| [Contents](toc.ipynb) |")
      [new_markdown_cell "<!--NOTEBOOK_HEADER--> intro", new_markdown_cell "Body text"] =
      some [new_markdown_cell "<!--NOTEBOOK_HEADER--> intro",
            new_markdown_cell "<!--NAVIGATION-->\n| [Contents](toc.ipynb) |",
            new_markdown_cell "<!--NAVIGATION-->\n| [Contents](toc.ipynb) |",
            new_markdown_cell "Body text"] ∧
    pyStartsWith NAVBAR_TAG "Body text" = false :=
  ⟨by decide, by decide⟩

/-- C5: `write_header` only touches the header cell — it amends the first
cell in place when it carries the header tag and otherwise prepends a fresh
markdown cell, leaving every other cell unchanged; running it twice gives
the same notebook as running it once; and the notebook-level operation
never changes the filename (hence the path written back to). -/
theorem claim_C5_write_header_frame :
    (∀ (c0 : Cell) (rest : List Cell),
       write_header (c0 :: rest) =
         some (if pyStartsWith NOTEBOOK_HEADER_TAG c0.source then
                 { c0 with source := NOTEBOOK_HEADER } :: rest
               else new_markdown_cell NOTEBOOK_HEADER :: c0 :: rest)) ∧
    (∀ cells : List Cell,
       (write_header cells).bind write_header = write_header cells) ∧
    (∀ nb : NB,
       (nb_write_header nb).all (fun nb2 => nb2.filename == nb.filename) = true) := by
  have hH : pyStartsWith NOTEBOOK_HEADER_TAG NOTEBOOK_HEADER = true := by decide
  refine ⟨?_, ?_, ?_⟩
  · intro c0 rest
    cases h : pyStartsWith NOTEBOOK_HEADER_TAG c0.source <;> simp [write_header, h]
  · intro cells
    cases cells with
    | nil => rfl
    | cons c0 rest =>
      cases h : pyStartsWith NOTEBOOK_HEADER_TAG c0.source <;>
        simp [write_header, h, hH, new_markdown_cell]
  · intro nb
    unfold nb_write_header
    cases h : write_header nb.cells <;> simp [Option.all]

/-! ### Claim C9 -/

/-- With no pending carriage return, `splitlinesAux` returns at least one
line unless both the accumulator and the input are empty. -/
lemma splitlinesAux_false_ne_nil :
    ∀ (cs acc : List Char), acc ≠ [] ∨ cs ≠ [] →
      splitlinesAux false acc cs ≠ [] := by
  intro cs
  induction cs with
  | nil =>
    intro acc h
    rcases h with h | h
    · rw [splitlinesAux]
      have : acc.isEmpty = false := by simpa using h
      simp [this]
    · simp at h
  | cons c rest ih =>
    intro acc h
    rw [splitlinesAux]
    simp only [Bool.false_and, Bool.false_eq_true, if_false]
    by_cases hb : isLineBreak c = true
    · simp [hb]
    · have hb' : isLineBreak c = false := by simpa using hb
      simp only [hb', Bool.false_eq_true, if_false]
      exact ih (c :: acc) (Or.inl (by simp))

/-- `pySplitlines` is empty exactly on the empty string. -/
lemma pySplitlines_eq_nil_iff (s : String) :
    pySplitlines s = [] ↔ s.data = [] := by
  constructor
  · intro h
    by_contra hne
    have hx := splitlinesAux_false_ne_nil s.data [] (Or.inr hne)
    rw [pySplitlines] at h
    exact hx (by simpa using h)
  · intro h
    rw [pySplitlines, h]
    rfl

/-- An infix test succeeds when the needle starts the haystack. -/
lemma isInfixList_starts (n b : List Char) : isInfixList n (n ++ b) = true := by
  cases n with
  | nil =>
    cases b with
    | nil => rfl
    | cons c rest => rw [List.nil_append, isInfixList]; simp
  | cons c n' =>
    rw [List.cons_append, isInfixList, Bool.or_eq_true]
    left
    rw [ List.isPrefixOf_iff_prefix]
    exact ⟨b, by simp⟩

/-- An infix of the tail is an infix of the whole list. -/
lemma isInfixList_append_left (n s t : List Char) (h : isInfixList n t = true) :
    isInfixList n (s ++ t) = true := by
  induction s with
  | nil => simpa using h
  | cons c s' ih =>
    rw [List.cons_append, isInfixList, Bool.or_eq_true]
    right
    exact ih

/-- Python `n in (s ++ t)` holds when `n in t` holds. -/
lemma pyIn_append_left (n s t : String) (h : pyIn n t = true) :
    pyIn n (s ++ t) = true := by
  rw [pyIn, String.data_append]
  exact isInfixList_append_left n.data s.data t.data h

/-- Python `n in (n ++ b)`. -/
lemma pyIn_starts (n b : String) : pyIn n (n ++ b) = true := by
  rw [pyIn, String.data_append]
  exact isInfixList_starts n.data b.data

/-- C9 (amended): the notebook title is `None` when no markdown cell starts
with `#`; when the first such cell's source is not exactly `"#"` the title
is that cell's first line with the leading `#` removed and stripped (as
`titleSpec` spells the spec's sentence); but when the source is exactly
`"#"` the accessor raises `IndexError` instead of returning a title.
When the title is `None`, the navbar and contents generators embed the
literal text "None" rather than failing. -/
theorem claim_C9_title_semantics :
    (∀ cells : List Cell, cells.find? isTitleCell = none → nbTitle cells = .ok none) ∧
    (∀ (cells : List Cell) (c : Cell), cells.find? isTitleCell = some c →
       c.source ≠ "#" → nbTitle cells = .ok (titleSpec cells)) ∧
    (∀ (cells : List Cell) (c : Cell), cells.find? isTitleCell = some c →
       c.source = "#" → nbTitle cells = .error .indexError) ∧
    (∀ p : NB, nbTitle p.cells = .ok none →
       ∃ line, prevPart (some p) = .ok line ∧ pyIn "None" line = true) ∧
    (∀ (dir : Option String) (nb : NB) (ch sec : String),
       REGmatch nb.filename = some (ch, sec) → nbTitle nb.cells = .ok none →
       ∃ line, genContentsLine dir nb = .ok line ∧ pyIn "None" line = true) := by
  refine ⟨?_, ?_, ?_, ?_, ?_⟩
  · intro cells hf
    simp only [nbTitle, hf]
  · intro cells c hf hne
    have hp : isTitleCell c = true := List.find?_some hf
    rw [isTitleCell, Bool.and_eq_true] at hp
    have hpre : pyStartsWith "#" c.source = true := hp.2
    rw [pyStartsWith, List.isPrefixOf_iff_prefix] at hpre
    obtain ⟨t, ht⟩ := hpre
    have hdata : c.source.data = '#' :: t := by
      rw [← ht]; rfl
    have htne : t ≠ [] := by
      intro h0
      apply hne
      rw [String.ext_iff, hdata, h0]
    have hdropne : (c.source.drop 1).data ≠ [] := by
      rw [String.data_drop, hdata]
      simpa using htne
    have hsl : pySplitlines (c.source.drop 1) ≠ [] := by
      intro h0
      exact hdropne ((pySplitlines_eq_nil_iff _).1 h0)
    cases hq : pySplitlines (c.source.drop 1) with
    | nil => exact absurd hq hsl
    | cons l ls => simp [nbTitle, titleSpec, hf, hq]
  · intro cells c hf hs
    have hnil : pySplitlines (c.source.drop 1) = [] := by
      rw [pySplitlines_eq_nil_iff, String.data_drop, hs]
      rfl
    simp only [nbTitle, hf, hnil]
  · intro p hnone
    simp only [prevPart, hnone, Except.map]
    refine ⟨_, rfl, ?_⟩
    simp only [pyStr, String.append_assoc]
    repeat
      first
        | exact pyIn_starts _ _
        | apply pyIn_append_left
  · intro dir nb ch sec hm hnone
    simp only [genContentsLine, hm, hnone, Except.map]
    refine ⟨_, rfl, ?_⟩
    simp only [pyStr]
    split_ifs <;>
      (simp only [String.append_assoc]
       repeat
         first
           | exact pyIn_starts _ _
           | apply pyIn_append_left)

/-- C9 counterexample: a markdown cell whose source is exactly `"#"` makes
the title accessor raise `IndexError`, while the claim's description of the
title yields the empty string. -/
theorem claim_C9_counterexample :
    nbTitle [new_markdown_cell "#"] = .error .indexError ∧
    titleSpec [new_markdown_cell "#"] = some "" :=
  ⟨by decide, by decide⟩

/-- Elementwise description of `zip3`. -/
lemma zip3_getElem? {α β γ : Type} :
    ∀ (as : List α) (bs : List β) (cs : List γ) (i : Nat),
      (zip3 as bs cs)[i]? =
        match as[i]?, bs[i]?, cs[i]? with
        | some a, some b, some c => some (a, b, c)
        | _, _, _ => none := by
  intro as
  induction as with
  | nil => intro bs cs i; cases bs <;> cases cs <;> simp [zip3]
  | cons a as ih =>
    intro bs cs i
    cases bs with
    | nil => simp [zip3]
    | cons b bs =>
      cases cs with
      | nil => simp [zip3]
      | cons c cs =>
        cases i with
        | zero => simp [zip3]
        | succ j => simp [zip3, ih]

/-- Members of `zip3` come from the three lists. -/
lemma zip3_mem {α β γ : Type} :
    ∀ {as : List α} {bs : List β} {cs : List γ} {x : α × β × γ},
      x ∈ zip3 as bs cs → x.1 ∈ as ∧ x.2.1 ∈ bs ∧ x.2.2 ∈ cs := by
  intro as
  induction as with
  | nil => intro bs cs x hx; cases bs <;> cases cs <;> simp [zip3] at hx
  | cons a as ih =>
    intro bs cs x hx
    cases bs with
    | nil => simp [zip3] at hx
    | cons b bs =>
      cases cs with
      | nil => simp [zip3] at hx
      | cons c cs =>
        rw [zip3, List.mem_cons] at hx
        rcases hx with rfl | hx
        · simp
        · obtain ⟨h1, h2, h3⟩ := ih hx
          exact ⟨List.mem_cons_of_mem _ h1, List.mem_cons_of_mem _ h2,
                 List.mem_cons_of_mem _ h3⟩

/-- `mapM` over `Except` succeeds pointwise. -/
lemma mapM_except_ok {β γ ε : Type} (f : β → Except ε γ) (g : β → γ) :
    ∀ xs : List β, (∀ x ∈ xs, f x = .ok (g x)) → xs.mapM f = .ok (xs.map g) := by
  intro xs
  induction xs with
  | nil => intro _; rfl
  | cons x xs ih =>
    intro h
    rw [List.mapM_cons, h x (List.mem_cons_self x xs),
        ih (fun y hy => h y (List.mem_cons_of_mem x hy))]
    rfl

/-- `titleOrNone` agrees with a successful `nbTitle`. -/
lemma titleOrNone_of_ok {nb : NB} {t : Option String}
    (h : nbTitle nb.cells = .ok t) : titleOrNone nb = t := by
  rw [titleOrNone, h]

/-- `mkNavbar` succeeds and produces `navStrTotal` when the neighbour
titles do not raise. -/
lemma mkNavbar_ok (p : Option NB) (n : NB) (q : Option NB)
    (hp : ∀ x, p = some x → ∃ t, nbTitle x.cells = .ok t)
    (hq : ∀ x, q = some x → ∃ t, nbTitle x.cells = .ok t) :
    mkNavbar p n q = .ok (navStrTotal p n q) := by
  cases p with
  | none =>
    cases q with
    | none => rfl
    | some x =>
      obtain ⟨t, ht⟩ := hq x rfl
      simp [mkNavbar, prevPart, nextPart, navStrTotal, nextLinkStr, ht,
            titleOrNone_of_ok ht, Except.map, Except.bind, Bind.bind, Pure.pure, Except.pure]
  | some x =>
    obtain ⟨t, ht⟩ := hp x rfl
    cases q with
    | none =>
      simp [mkNavbar, prevPart, nextPart, navStrTotal, prevLinkStr, ht,
            titleOrNone_of_ok ht, Except.map, Except.bind, Bind.bind, Pure.pure, Except.pure]
    | some y =>
      obtain ⟨u, hu⟩ := hq y rfl
      simp [mkNavbar, prevPart, nextPart, navStrTotal, prevLinkStr, nextLinkStr,
            ht, hu, titleOrNone_of_ok ht, titleOrNone_of_ok hu, Except.map,
            Except.bind, Bind.bind, Pure.pure, Except.pure]

/-- Length of `zip3`. -/
lemma zip3_length {α β γ : Type} :
    ∀ (as : List α) (bs : List β) (cs : List γ),
      (zip3 as bs cs).length = min as.length (min bs.length cs.length) := by
  intro as
  induction as with
  | nil => intro bs cs; cases bs <;> cases cs <;> simp [zip3]
  | cons a as ih =>
    intro bs cs
    cases bs with
    | nil => simp [zip3]
    | cons b bs =>
      cases cs with
      | nil => simp [zip3]
      | cons c cs => simp [zip3, ih]; omega

/-- C4: for a collection with non-raising titles, the navbar assembled for
the notebook at position `i` starts with the navigation tag, carries a prev
link (previous notebook's title and url) exactly when `i` is not the first
position, always carries the Contents link, carries a next link exactly
when `i` is not the last position, and ends with the notebook's own Colab
badge link. -/
theorem claim_C4_navbar_content (l : List NB)
    (hok : ∀ nb ∈ l, ∃ t, nbTitle nb.cells = .ok t)
    (i : Nat) (hi : i < l.length) :
    ∃ res, mkNavbars l = .ok res ∧ res.length = l.length ∧
      res[i]? = some (l.get ⟨i, hi⟩,
        NAVBAR_TAG ++
        (if i = 0 then "" else prevLinkStr (l.get ⟨i - 1, by omega⟩)) ++
        CONTENTS ++
        (if h : i + 1 = l.length then "" else nextLinkStr (l.get ⟨i + 1, by omega⟩)) ++
        colab_link (l.get ⟨i, hi⟩).filename) := by
  have hne : l ≠ [] := by
    intro h
    rw [h] at hi
    simp at hi
  have hmk : mkNavbars l = (navTriples l).mapM
      (fun t => (mkNavbar t.1 t.2.1 t.2.2).map (fun s => (t.2.1, s))) := by
    cases l with
    | nil => exact absurd rfl hne
    | cons a as => rfl
  have hmapm : (navTriples l).mapM
      (fun t => (mkNavbar t.1 t.2.1 t.2.2).map (fun s => (t.2.1, s))) =
      .ok ((navTriples l).map (fun t => (t.2.1, navStrTotal t.1 t.2.1 t.2.2))) := by
    apply mapM_except_ok
    intro x hx
    rw [navTriples] at hx
    obtain ⟨h1, h2, h3⟩ := zip3_mem hx
    have hp : ∀ z, x.1 = some z → ∃ t, nbTitle z.cells = .ok t := by
      intro z hz
      rw [hz] at h1
      rcases List.mem_cons.1 h1 with h | h
      · exact absurd h.symm (by simp)
      · obtain ⟨nb, hnb, he⟩ := List.mem_map.1 h
        obtain rfl : nb = z := by simpa using he
        exact hok nb hnb
    have hq : ∀ z, x.2.2 = some z → ∃ t, nbTitle z.cells = .ok t := by
      intro z hz
      rw [hz] at h3
      rcases List.mem_append.1 h3 with h | h
      · obtain ⟨nb, hnb, he⟩ := List.mem_map.1 h
        obtain rfl : nb = z := by simpa using he
        exact hok nb (List.drop_subset 1 l hnb)
      · simp at h
    rw [mkNavbar_ok x.1 x.2.1 x.2.2 hp hq]
    rfl
  have hlen : (navTriples l).length = l.length := by
    rw [navTriples, zip3_length]
    simp
    omega
  refine ⟨_, by rw [hmk, hmapm], by simpa using hlen, ?_⟩
  rw [List.getElem?_map]
  rw [navTriples, zip3_getElem?]
  have hbs : l[i]? = some (l.get ⟨i, hi⟩) := by
    simp [List.getElem?_eq_getElem hi]
  rw [hbs]
  by_cases hi0 : i = 0
  · subst hi0
    rw [List.getElem?_cons_zero]
    by_cases hlast : (0 : Nat) + 1 = l.length
    · have h1 : ((l.drop 1).map some ++ [none])[0]? = some none := by
        have : ((l.drop 1).map some).length = 0 := by simp; omega
        rw [List.getElem?_append_right (by omega)]
        simp [this]
      rw [h1]
      simp [navStrTotal, hlast]
    · have hlt : 0 + 1 < l.length := by omega
      have h1 : ((l.drop 1).map some ++ [none])[0]? =
          some (some (l.get ⟨1, by omega⟩)) := by
        rw [List.getElem?_append_left (by simp; omega)]
        rw [List.getElem?_map, List.getElem?_drop]
        simp [List.getElem?_eq_getElem (show 1 + 0 < l.length by omega)]
      rw [h1]
      simp [navStrTotal, hlast]
  · have hi1 : i - 1 < l.length := by omega
    have has : (none :: l.map some)[i]? = some (some (l.get ⟨i - 1, hi1⟩)) := by
      cases i with
      | zero => exact absurd rfl hi0
      | succ j =>
        rw [List.getElem?_cons_succ, List.getElem?_map]
        simp [List.getElem?_eq_getElem (show j < l.length by omega)]
    rw [has]
    by_cases hlast : i + 1 = l.length
    · have h1 : ((l.drop 1).map some ++ [none])[i]? = some none := by
        rw [List.getElem?_append_right (by simp; omega)]
        have : ((l.drop 1).map some).length = l.length - 1 := by simp
        rw [this]
        have : i - (l.length - 1) = 0 := by omega
        rw [this]
        rfl
      rw [h1]
      simp [navStrTotal, hi0, hlast]
    · have h1 : ((l.drop 1).map some ++ [none])[i]? =
          some (some (l.get ⟨i + 1, by omega⟩)) := by
        rw [List.getElem?_append_left (by simp; omega)]
        rw [List.getElem?_map, List.getElem?_drop]
        simp [List.getElem?_eq_getElem (show 1 + i < l.length by omega), Nat.add_comm]
      rw [h1]
      simp [navStrTotal, hi0, hlast]

/-- `nbLink` succeeds with `linkSpec` when the filename matches and the
title does not raise. -/
lemma nbLink_ok {nb : NB} {ch sec : String} {t : Option String}
    (hR : REGmatch nb.filename = some (ch, sec))
    (ht : nbTitle nb.cells = .ok t) :
    nbLink nb = .ok (linkSpec nb) := by
  simp [nbLink, nbNumberedTitle, hR, ht, Except.map, linkSpec, chapterOf,
        sectionOf, titleOrNone_of_ok ht]

/-- `tocBlockOf` succeeds with `tocBlockSpec` under the same hypotheses. -/
lemma tocBlockOf_ok {nb : NB} {ch sec : String} {t : Option String}
    (hR : REGmatch nb.filename = some (ch, sec))
    (ht : nbTitle nb.cells = .ok t) :
    tocBlockOf nb = .ok (tocBlockSpec nb) := by
  have hl := nbLink_ok hR ht
  simp [tocBlockOf, nbToc, hR, hl, Except.map, tocBlockSpec, sectionOf]

/-- `nbReadme` succeeds with `readmeLineSpec` under the same hypotheses. -/
lemma nbReadme_ok {nb : NB} {ch sec : String} {t : Option String}
    (hR : REGmatch nb.filename = some (ch, sec))
    (ht : nbTitle nb.cells = .ok t) :
    nbReadme nb = .ok (readmeLineSpec nb) := by
  have hl := nbLink_ok hR ht
  simp [nbReadme, hR, hl, Except.map, readmeLineSpec, sectionOf]

/-- C6 (amended): `write_toc` writes `toc.md` as the `TOC_HEADER` line
followed, for each notebook in the given order, by its `tocBlockSpec`
block (numbered title link, one indented bullet per `##` markdown cell,
`* Figures` exactly when the markdown cells contain image references,
`* Links` exactly when the markdown cells of `cells[2:-1]` contain
markdown links), and `toc.ipynb` is the `notedown` conversion of exactly
that content; `write_readme` writes the README header, the Table of
Contents link, and one title-link line per notebook in the same order. -/
theorem claim_C6_toc_readme_content (notedown : String → String) (l : List NB)
    (hm : ∀ nb ∈ l, (REGmatch nb.filename).isSome = true)
    (ht : ∀ nb ∈ l, ∃ t, nbTitle nb.cells = .ok t) :
    write_toc notedown l =
      .ok (TOC_HEADER ++ "\n" ++ String.join (l.map tocBlockSpec),
           notedown (TOC_HEADER ++ "\n" ++ String.join (l.map tocBlockSpec))) ∧
    write_readme l =
      .ok (README_HEADER ++ README_TOC ++
           String.intercalate "\n" (l.map readmeLineSpec) ++ "\n" ++ README_FOOTER) := by
  have hblocks : l.mapM tocBlockOf = .ok (l.map tocBlockSpec) := by
    apply mapM_except_ok
    intro nb hnb
    obtain ⟨t, htt⟩ := ht nb hnb
    have hs := hm nb hnb
    cases hR : REGmatch nb.filename with
    | none => rw [hR] at hs; simp at hs
    | some p =>
      obtain ⟨ch, sec⟩ := p
      exact tocBlockOf_ok hR htt
  have hlines : l.mapM nbReadme = .ok (l.map readmeLineSpec) := by
    apply mapM_except_ok
    intro nb hnb
    obtain ⟨t, htt⟩ := ht nb hnb
    have hs := hm nb hnb
    cases hR : REGmatch nb.filename with
    | none => rw [hR] at hs; simp at hs
    | some p =>
      obtain ⟨ch, sec⟩ := p
      exact nbReadme_ok hR htt
  constructor
  · rw [write_toc, hblocks]
    rfl
  · rw [write_readme, hlines]
    rfl

/-- C4 witness: evaluation of the navbar structure at the first of two
notebooks. -/
theorem claim_C4_witness :
    (∀ nb ∈ sampleNBs, ∃ t, nbTitle nb.cells = .ok t) ∧
    0 < sampleNBs.length ∧
    (∃ res, mkNavbars sampleNBs = .ok res ∧ res.length = sampleNBs.length ∧
      res[0]? = some (sampleNBs.get ⟨0, by decide⟩,
        NAVBAR_TAG ++
        (if 0 = 0 then "" else prevLinkStr (sampleNBs.get ⟨0 - 1, by decide⟩)) ++
        CONTENTS ++
        (if h : 0 + 1 = sampleNBs.length then ""
         else nextLinkStr (sampleNBs.get ⟨0 + 1, by decide⟩)) ++
        colab_link (sampleNBs.get ⟨0, by decide⟩).filename)) := by
  have hok : ∀ nb ∈ sampleNBs, ∃ t, nbTitle nb.cells = .ok t := by
    intro nb hnb
    rcases List.mem_cons.1 hnb with rfl | hnb
    · exact ⟨some "A", by decide⟩
    · rcases List.mem_cons.1 hnb with rfl | hnb
      · exact ⟨some "B", by decide⟩
      · simp at hnb
  exact ⟨hok, by decide, claim_C4_navbar_content sampleNBs hok 0 (by decide)⟩

/-- C6 counterexample: `linkNB`'s markdown cells contain a markdown link,
yet the generated `toc.md` has no `* Links` list, because `nb.links` only
scans `cells[2:-1]`. -/
theorem claim_C6_counterexample :
    new_markdown_cell "nav [Contents](toc.ipynb)" ∈ linkNB.cells ∧
    linkFindall "nav [Contents](toc.ipynb)" = [("Contents", "toc.ipynb")] ∧
    (write_toc id [linkNB]).map (fun p => (pySplitlines p.1).count "* Links") =
      .ok 0 :=
  ⟨by decide, by decide, by decide⟩

/-- C6 witness: evaluation of the toc/readme structure on the sample
collection. -/
theorem claim_C6_witness :
    (∀ nb ∈ sampleNBs, (REGmatch nb.filename).isSome = true) ∧
    (∀ nb ∈ sampleNBs, ∃ t, nbTitle nb.cells = .ok t) ∧
    (write_toc id sampleNBs =
      .ok (TOC_HEADER ++ "\n" ++ String.join (sampleNBs.map tocBlockSpec),
           id (TOC_HEADER ++ "\n" ++ String.join (sampleNBs.map tocBlockSpec))) ∧
     write_readme sampleNBs =
      .ok (README_HEADER ++ README_TOC ++
           String.intercalate "\n" (sampleNBs.map readmeLineSpec) ++ "\n" ++
           README_FOOTER)) := by
  have hok : ∀ nb ∈ sampleNBs, ∃ t, nbTitle nb.cells = .ok t := by
    intro nb hnb
    rcases List.mem_cons.1 hnb with rfl | hnb
    · exact ⟨some "A", by decide⟩
    · rcases List.mem_cons.1 hnb with rfl | hnb
      · exact ⟨some "B", by decide⟩
      · simp at hnb
  exact ⟨by decide, hok,
         claim_C6_toc_readme_content id sampleNBs (by decide) hok⟩

/-! ### Claim C10 -/

/-- Two lists sorted by a key are equal when they are permutations of each
other and the keys are distinct. -/
lemma eq_of_sorted_perm_keys {α β : Type} [LinearOrder β] (key : α → β) :
    ∀ (l1 l2 : List α), l1.Perm l2 →
      l1.Pairwise (fun a b => key a ≤ key b) →
      l2.Pairwise (fun a b => key a ≤ key b) →
      (l1.map key).Nodup → l1 = l2 := by
  intro l1
  induction l1 with
  | nil =>
    intro l2 hp _ _ _
    exact (List.Perm.eq_nil hp.symm).symm
  | cons a t1 ih =>
    intro l2 hp hs1 hs2 hnd
    cases l2 with
    | nil =>
      have := hp.length_eq
      simp at this
    | cons b t2 =>
      by_cases hab : a = b
      · subst hab
        have hperm' : t1.Perm t2 := hp.cons_inv
        have htail := ih t2 hperm' (List.pairwise_cons.1 hs1).2
          (List.pairwise_cons.1 hs2).2 (by simpa using (List.nodup_cons.1 (by simpa using hnd)).2)
        rw [htail]
      · exfalso
        have ha2 : a ∈ t2 := by
          have hm : a ∈ b :: t2 := hp.mem_iff.1 (List.mem_cons_self a t1)
          rcases List.mem_cons.1 hm with h | h
          · exact absurd h hab
          · exact h
        have hb1 : b ∈ t1 := by
          have hm : b ∈ a :: t1 := hp.symm.mem_iff.1 (List.mem_cons_self b t2)
          rcases List.mem_cons.1 hm with h | h
          · exact absurd h.symm hab
          · exact h
        have h1 : key a ≤ key b := (List.pairwise_cons.1 hs1).1 b hb1
        have h2 : key b ≤ key a := (List.pairwise_cons.1 hs2).1 a ha2
        have hk : key a = key b := le_antisymm h1 h2
        have hmem : key b ∈ t1.map key := List.mem_map_of_mem key hb1
        rw [← hk] at hmem
        exact (List.nodup_cons.1 (by simpa using hnd)).1 hmem

/-- The comparison used by `nbcollection` is transitive. -/
lemma nbLe_trans (a b c : NB)
    (hab : decide (a.filename ≤ b.filename) = true)
    (hbc : decide (b.filename ≤ c.filename) = true) :
    decide (a.filename ≤ c.filename) = true := by
  simp at *
  exact le_trans hab hbc

/-- The comparison used by `nbcollection` is total. -/
lemma nbLe_total (a b : NB) :
    (decide (a.filename ≤ b.filename) || decide (b.filename ≤ a.filename)) = true := by
  rcases le_total a.filename b.filename with h | h <;> simp [h]

/-- C10: the notebook collection (hence the order of README, toc and the
prev/next chain) is the ascending-filename sorting of the accepted
directory entries; with distinct filenames the result is independent of
the order `os.listdir` returned, and the same holds for
`iter_notebooks`. -/
theorem claim_C10_order_deterministic
    (files1 files2 : List (String × List Cell))
    (hperm : files1.Perm files2)
    (hnodup : (files1.map Prod.fst).Nodup) :
    nbcollection files1 = nbcollection files2 ∧
    (nbcollection files1).Pairwise (fun a b : NB => a.filename ≤ b.filename) ∧
    iter_notebooks (files1.map Prod.fst) = iter_notebooks (files2.map Prod.fst) := by
  have hsort1 : (nbcollection files1).Pairwise
      (fun a b : NB => a.filename ≤ b.filename) := by
    have := List.sorted_mergeSort nbLe_trans nbLe_total
      ((files1.filter (fun f => REGselect f.1)).map (fun f => NB.mk f.1 f.2))
    rw [nbcollection]
    exact this.imp (fun h => by simpa using h)
  refine ⟨?_, hsort1, ?_⟩
  · have hsort2 : (nbcollection files2).Pairwise
        (fun a b : NB => a.filename ≤ b.filename) := by
      have := List.sorted_mergeSort nbLe_trans nbLe_total
        ((files2.filter (fun f => REGselect f.1)).map (fun f => NB.mk f.1 f.2))
      rw [nbcollection]
      exact this.imp (fun h => by simpa using h)
    have hpc : (nbcollection files1).Perm (nbcollection files2) := by
      rw [nbcollection, nbcollection]
      exact (List.mergeSort_perm _ _).trans
        (((hperm.filter _).map _).trans (List.mergeSort_perm _ _).symm)
    have hnd : ((nbcollection files1).map NB.filename).Nodup := by
      have hsub : ((files1.filter (fun f => REGselect f.1)).map Prod.fst).Sublist
          (files1.map Prod.fst) := (List.filter_sublist _).map _
      have hnd0 : ((files1.filter (fun f => REGselect f.1)).map Prod.fst).Nodup :=
        hsub.nodup hnodup
      have hmapeq : (((files1.filter (fun f => REGselect f.1)).map
          (fun f => NB.mk f.1 f.2)).map NB.filename) =
          ((files1.filter (fun f => REGselect f.1)).map Prod.fst) := by
        rw [List.map_map]
        rfl
      have hperm2 : ((nbcollection files1).map NB.filename).Perm
          ((files1.filter (fun f => REGselect f.1)).map Prod.fst) := by
        rw [nbcollection, ← hmapeq]
        exact (List.mergeSort_perm _ _).map _
      exact hperm2.nodup_iff.2 hnd0
    exact eq_of_sorted_perm_keys NB.filename _ _ hpc hsort1 hsort2 hnd
  · have hsel : ∀ (s : String × List Cell), REGselect s.1 = REGselect s.1 := fun _ => rfl
    have hfi : (files1.map Prod.fst).filter REGselect =
        (files1.filter (fun f => REGselect f.1)).map Prod.fst := by
      rw [List.filter_map]
      rfl
    have hfi2 : (files2.map Prod.fst).filter REGselect =
        (files2.filter (fun f => REGselect f.1)).map Prod.fst := by
      rw [List.filter_map]
      rfl
    have htr : ∀ (a b c : String), decide (a ≤ b) = true → decide (b ≤ c) = true →
        decide (a ≤ c) = true := by
      intro a b c h1 h2
      simp at *
      exact le_trans h1 h2
    have hto : ∀ (a b : String), (decide (a ≤ b) || decide (b ≤ a)) = true := by
      intro a b
      rcases le_total a b with h | h <;> simp [h]
    have hs1 : (iter_notebooks (files1.map Prod.fst)).Pairwise
        (fun a b : String => a ≤ b) := by
      have := List.sorted_mergeSort htr hto ((files1.map Prod.fst).filter REGselect)
      rw [iter_notebooks]
      exact this.imp (fun h => by simpa using h)
    have hs2 : (iter_notebooks (files2.map Prod.fst)).Pairwise
        (fun a b : String => a ≤ b) := by
      have := List.sorted_mergeSort htr hto ((files2.map Prod.fst).filter REGselect)
      rw [iter_notebooks]
      exact this.imp (fun h => by simpa using h)
    have hpc : (iter_notebooks (files1.map Prod.fst)).Perm
        (iter_notebooks (files2.map Prod.fst)) := by
      rw [iter_notebooks, iter_notebooks]
      exact (List.mergeSort_perm _ _).trans
        (((hperm.map Prod.fst).filter REGselect).trans (List.mergeSort_perm _ _).symm)
    have hnd : ((iter_notebooks (files1.map Prod.fst)).map id).Nodup := by
      have hnd0 : ((files1.map Prod.fst).filter REGselect).Nodup :=
        (List.filter_sublist _).nodup hnodup
      have hperm2 : (iter_notebooks (files1.map Prod.fst)).Perm
          ((files1.map Prod.fst).filter REGselect) := by
        rw [iter_notebooks]
        exact List.mergeSort_perm _ _
      simpa using hperm2.nodup_iff.2 hnd0
    have := eq_of_sorted_perm_keys (id : String → String)
      (iter_notebooks (files1.map Prod.fst)) (iter_notebooks (files2.map Prod.fst))
      hpc (hs1.imp (fun h => by simpa using h)) (hs2.imp (fun h => by simpa using h)) hnd
    exact this

/-- C10 witness: two listing orders of the same two files. -/
theorem claim_C10_witness :
    filesA.Perm filesB ∧ (filesA.map Prod.fst).Nodup ∧
    (nbcollection filesA = nbcollection filesB ∧
     (nbcollection filesA).Pairwise (fun a b : NB => a.filename ≤ b.filename) ∧
     iter_notebooks (filesA.map Prod.fst) = iter_notebooks (filesB.map Prod.fst)) := by
  have hperm : filesA.Perm filesB :=
    List.Perm.swap ("01.01-A.ipynb", []) ("02.01-B.ipynb", []) []
  have hnd : (filesA.map Prod.fst).Nodup := by decide
  exact ⟨hperm, hnd, claim_C10_order_deterministic filesA filesB hperm hnd⟩

/-- C9 witness: the title of a well-formed notebook follows the spec's
formula. -/
theorem claim_C9_witness :
    [new_markdown_cell "# Hello"].find? isTitleCell =
      some (new_markdown_cell "# Hello") ∧
    (new_markdown_cell "# Hello").source ≠ "#" ∧
    nbTitle [new_markdown_cell "# Hello"] =
      .ok (titleSpec [new_markdown_cell "# Hello"]) :=
  ⟨by decide, by decide,
   claim_C9_title_semantics.2.1 [new_markdown_cell "# Hello"]
     (new_markdown_cell "# Hello") (by decide) (by decide)⟩

end PyomoCookbook
